import Mathlib

/-!
Verification of the Metagrain granular-synthesis MetaSound nodes.

This file gives a shallow embedding, over exact rationals (and reals for the
trigonometric mixer facts), of the grain-rendering pipeline implemented in
  Source/Metagrain/Private/GranularSynthNode.cpp
    (operator FGranularSynthOperator, called V1 below, and
     operator FGranularSynthOperator_Step8, called V2 below)
  Source/Metagrain/Private/GranularWavePlayerSmoothNode.cpp
    (operator FGranularWavePlayerSmoothOperator, called V3 below).

Modelling conventions:
* C++ float arithmetic is modelled by exact rational arithmetic.
* Calls into external collaborators (the FSoundWaveProxyReader decoder, the
  deinterleaver, the multichannel linear resampler, and the transcendental
  float math routines FMath::Pow / Cos / Sin / Exp) are modelled by oracle
  fields of an environment structure: the embedding records exactly what the
  engine does with the values those collaborators return.
* FMath::FRandRange(a, b) is modelled as a + (b - a) * u where u comes from a
  per-call-site stream of unit random values supplied by the environment.
* int32 truncation of a float is modelled by truncation toward zero.
-/

namespace Metagrain

/-! ### Constants of FGranularSynthOperator (GranularSynthNode.cpp lines 102-108) -/

def MaxGrainVoicesN : ℕ := 32

def MinGrainDurationSecondsQ : ℚ := 5 / 1000

def MaxAbsPitchShiftSemitonesQ : ℚ := 60

def DeinterleaveBlockSizeFramesN : ℕ := 256

def MinActiveVoicesParamQ : ℚ := 1 / 100

def MinSamplesPerGrainIntervalQ : ℚ := 1

def EpsilonQ : ℚ := 1 / 1000000

/-- UE_SMALL_NUMBER (1.e-8f). -/
def SmallNumberQ : ℚ := 1 / 100000000

/-- Largest finite value of a 32-bit float, TNumericLimits of float Max:
(2 - 2^-23) * 2^127. -/
def FloatMaxQ : ℚ := 2 ^ 128 - 2 ^ 104

/-! ### Primitive float-like operations -/

/-- FMath::Clamp(X, Min, Max): X < Min gives Min, else X < Max gives X, else Max. -/
def clampQ (x lo hi : ℚ) : ℚ := if x < lo then lo else if x < hi then x else hi

theorem clampQ_le (x lo hi : ℚ) (h : lo ≤ hi) : clampQ x lo hi ≤ hi := by
  unfold clampQ
  split
  · exact h
  · split
    · next h2 => exact le_of_lt h2
    · exact le_refl hi

theorem clampQ_ge (x lo hi : ℚ) (h : lo ≤ hi) : lo ≤ clampQ x lo hi := by
  unfold clampQ
  split
  · exact le_refl lo
  · next h1 =>
    split
    · exact le_of_not_lt h1
    · exact h

/-- Truncation of a rational toward zero, the behaviour of a C++
`static_cast` from float to a signed integer type. -/
def truncQ (q : ℚ) : ℤ := if 0 ≤ q then ⌊q⌋ else ⌈q⌉

/-- FMath::Fmod(x, y): the C fmod, x minus y times the quotient truncated
toward zero. -/
def fmodQ (x y : ℚ) : ℚ := x - y * (truncQ (x / y) : ℚ)

/-! ### The grain voice record (struct FGrainVoice, GranularSynthNode.cpp lines 80-97).
Buffers and the owned reader/resampler handles are modelled by presence flags;
their contents belong to the abstracted external collaborators. -/

structure VoiceM where
  bIsActive : Bool := false
  numChannels : ℤ := 0
  samplesRemaining : ℤ := 0
  samplesPlayed : ℤ := 0
  totalGrainSamples : ℤ := 0
  panPosition : ℚ := 0
  volumeScale : ℚ := 1
  bIsReversed : Bool := false
  hasReader : Bool := false
  hasResampler : Bool := false
deriving Repr, DecidableEq, Inhabited

/-- The state ResetVoices (lines 995-1005) writes into every slot. -/
def defaultVoice : VoiceM := {}

/-- ResetVoices: every slot becomes inactive with zeroed counters and its
reader/resampler released. -/
def resetVoices (vs : List VoiceM) : List VoiceM := vs.map (fun _ => defaultVoice)

/-- Number of active voices in the pool. -/
def activeCount (vs : List VoiceM) : ℕ := (vs.filter (fun v => v.bIsActive)).length

theorem resetVoices_eq_replicate (vs : List VoiceM) :
    resetVoices vs = List.replicate vs.length defaultVoice := by
  induction vs with
  | nil => rfl
  | cons v vs ih =>
    show defaultVoice :: resetVoices vs = _
    rw [ih]
    rfl

theorem activeCount_le_length (vs : List VoiceM) : activeCount vs ≤ vs.length :=
  List.length_filter_le _ vs

theorem length_resetVoices (vs : List VoiceM) : (resetVoices vs).length = vs.length := by
  simp [resetVoices]

theorem activeCount_replicate_default (n : ℕ) :
    activeCount (List.replicate n defaultVoice) = 0 := by
  induction n with
  | zero => rfl
  | succ n ih =>
    have hb : defaultVoice.bIsActive = false := rfl
    simp only [List.replicate_succ, activeCount, List.filter_cons, hb] at ih ⊢
    simp only [Bool.false_eq_true, if_false]
    exact ih

/-! ### First-inactive-slot search (TriggerGrain, lines 862-864) -/

theorem findIdx?_inactive_spec :
    ∀ (l : List VoiceM) (i : ℕ), l.findIdx? (fun v => !v.bIsActive) = some i →
      i < l.length ∧ (l.getD i defaultVoice).bIsActive = false := by
  intro l
  induction l with
  | nil => intro i h; simp [List.findIdx?] at h
  | cons x xs ih =>
    intro i h
    rw [List.findIdx?_cons] at h
    by_cases hx : x.bIsActive
    · simp [hx] at h
      obtain ⟨j, hj, hji⟩ := h
      obtain ⟨h1, h2⟩ := ih j hj
      subst hji
      exact ⟨by simpa using Nat.succ_lt_succ h1, by simpa using h2⟩
    · simp [hx] at h
      subst h
      simpa using hx

theorem findIdx?_none_spec :
    ∀ (l : List VoiceM), (∀ v ∈ l, v.bIsActive = true) →
      l.findIdx? (fun v => !v.bIsActive) = none := by
  intro l
  induction l with
  | nil => intro _; rfl
  | cons x xs ih =>
    intro h
    rw [List.findIdx?_cons]
    have hx : x.bIsActive = true := h x (by simp)
    have htail : xs.findIdx? (fun v => !v.bIsActive) = none :=
      ih (fun v hv => h v (by simp [hv]))
    simp [hx, htail]

theorem getD_set_ne (l : List VoiceM) (i j : ℕ) (x d : VoiceM) (h : i ≠ j) :
    (l.set i x).getD j d = l.getD j d := by
  simp [List.getD]
  rw [List.getElem?_set_ne h]

theorem length_set_voices (l : List VoiceM) (i : ℕ) (x : VoiceM) :
    (l.set i x).length = l.length := List.length_set l i x

theorem activeCount_set_le (l : List VoiceM) (i : ℕ) (x : VoiceM) :
    activeCount (l.set i x) ≤ l.length := by
  calc activeCount (l.set i x) ≤ (l.set i x).length := activeCount_le_length _
  _ = l.length := List.length_set l i x

/-! ### Grain trigger scheduler of FGranularSynthOperator (Execute, lines 436-469).

Base interval: (BaseGrainDurationSeconds / EffectiveActiveVoices) * SampleRate
with BaseGrainDurationSeconds = max(MinGrainDurationSeconds, grainDurationMs/1000)
and EffectiveActiveVoices = max(MinActiveVoicesParam, activeVoicesInput);
TNumericLimits float Max when any factor is nonpositive (lines 434-439). -/

def baseSamplesPerGrainIntervalV1 (grainDurationMs activeVoicesP sampleRate : ℚ) : ℚ :=
  let d := max MinGrainDurationSecondsQ (grainDurationMs / 1000)
  let v := max MinActiveVoicesParamQ activeVoicesP
  if 0 < v ∧ 0 < d ∧ 0 < sampleRate then d / v * sampleRate else FloatMaxQ

/-- One jittered interval (line 465): max(MinSamplesPerGrainInterval,
base + FRandRange(-1,1) * base * (jitterPercent/100)), with the random draw
modelled as -1 + 2u for a unit random u. -/
def jitteredIntervalV1 (base jitPct u : ℚ) : ℚ :=
  max MinSamplesPerGrainIntervalQ (base + (-1 + 2 * u) * base * (jitPct / 100))

theorem one_le_jitteredIntervalV1 (base jitPct u : ℚ) :
    1 ≤ jitteredIntervalV1 base jitPct u := le_max_left _ _

/-- The while loop of lines 462-467: while the counter is at most the elapsed
samples, count one more grain and reseed the counter by the next jittered
interval. `k` is the number of grains counted so far and indexes the
per-iteration random draw. Terminates because every interval is at least 1. -/
def schedLoop (base jitPct : ℚ) (u : ℕ → ℚ) (k : ℕ) (counter elapsed : ℚ) : ℕ × ℚ :=
  if counter ≤ elapsed then
    schedLoop base jitPct u (k + 1) (counter + jitteredIntervalV1 base jitPct (u k)) elapsed
  else (k, counter)
termination_by (⌈elapsed - counter⌉ + 1).toNat
decreasing_by
  have hj : (1 : ℚ) ≤ jitteredIntervalV1 base jitPct (u k) := le_max_left _ _
  have h1 : ⌈elapsed - (counter + jitteredIntervalV1 base jitPct (u k))⌉
      ≤ ⌈elapsed - counter⌉ - 1 := by
    have h : elapsed - (counter + jitteredIntervalV1 base jitPct (u k))
        ≤ (elapsed - counter) - 1 := by linarith
    calc ⌈elapsed - (counter + jitteredIntervalV1 base jitPct (u k))⌉
        ≤ ⌈(elapsed - counter) - 1⌉ := Int.ceil_le_ceil h
    _ = ⌈elapsed - counter⌉ - 1 := by rw [Int.ceil_sub_one]
  have h2 : (0 : ℤ) ≤ ⌈elapsed - counter⌉ := Int.ceil_nonneg (by linarith)
  omega

theorem schedLoop_go (base jitPct : ℚ) (u : ℕ → ℚ) (k : ℕ) (counter elapsed : ℚ)
    (h : counter ≤ elapsed) :
    schedLoop base jitPct u k counter elapsed
      = schedLoop base jitPct u (k + 1)
          (counter + jitteredIntervalV1 base jitPct (u k)) elapsed := by
  rw [schedLoop]
  rw [if_pos h]

theorem schedLoop_done (base jitPct : ℚ) (u : ℕ → ℚ) (k : ℕ) (counter elapsed : ℚ)
    (h : elapsed < counter) :
    schedLoop base jitPct u k counter elapsed = (k, counter) := by
  rw [schedLoop]
  rw [if_neg (not_le.mpr h)]

/-- On exit of the while loop the counter strictly exceeds the elapsed samples. -/
theorem schedLoop_final_gt (base jitPct : ℚ) (u : ℕ → ℚ) :
    ∀ (n : ℕ) (k : ℕ) (counter elapsed : ℚ),
      (⌈elapsed - counter⌉ + 1).toNat ≤ n →
      elapsed < (schedLoop base jitPct u k counter elapsed).2 := by
  intro n
  induction n with
  | zero =>
    intro k counter elapsed hn
    have hlt : elapsed < counter := by
      by_contra hc
      push_neg at hc
      have : (0 : ℤ) ≤ ⌈elapsed - counter⌉ := Int.ceil_nonneg (by linarith)
      omega
    rw [schedLoop_done base jitPct u k counter elapsed hlt]
    exact hlt
  | succ n ih =>
    intro k counter elapsed hn
    by_cases hc : counter ≤ elapsed
    · rw [schedLoop_go base jitPct u k counter elapsed hc]
      apply ih
      have hj : (1 : ℚ) ≤ jitteredIntervalV1 base jitPct (u k) := le_max_left _ _
      have h1 : ⌈elapsed - (counter + jitteredIntervalV1 base jitPct (u k))⌉
          ≤ ⌈elapsed - counter⌉ - 1 := by
        have h : elapsed - (counter + jitteredIntervalV1 base jitPct (u k))
            ≤ (elapsed - counter) - 1 := by linarith
        calc ⌈elapsed - (counter + jitteredIntervalV1 base jitPct (u k))⌉
            ≤ ⌈(elapsed - counter) - 1⌉ := Int.ceil_le_ceil h
        _ = ⌈elapsed - counter⌉ - 1 := by rw [Int.ceil_sub_one]
      omega
    · push_neg at hc
      rw [schedLoop_done base jitPct u k counter elapsed hc]
      exact hc

/-- The scheduler step of one Execute call (lines 459-469): when the base
interval is positive and finite, run the counting loop starting from the
stored counter, then subtract the elapsed samples from the final counter;
otherwise trigger nothing and keep the counter. Returns (grains counted,
new value of SamplesUntilNextGrain). -/
def schedStepV1 (base jitPct : ℚ) (u : ℕ → ℚ) (counter elapsed : ℚ) : ℕ × ℚ :=
  if 0 < base ∧ base < FloatMaxQ then
    ((schedLoop base jitPct u 0 counter elapsed).1,
     (schedLoop base jitPct u 0 counter elapsed).2 - elapsed)
  else (0, counter)

/-- Block-by-block simulation of the scheduler with a fixed interval and no
jitter: returns the number of grains counted in each successive block. -/
def simGrainBlocksV1 (base blockSize : ℚ) : ℕ → ℚ → List ℕ
  | 0, _ => []
  | n + 1, c =>
    (schedStepV1 base 0 (fun _ => 0) c blockSize).1 ::
      simGrainBlocksV1 base blockSize n (schedStepV1 base 0 (fun _ => 0) c blockSize).2

/-- Indices of the nonzero entries of a list of per-block grain counts. -/
def idxWhereAux : ℕ → List ℕ → List ℕ
  | _, [] => []
  | i, x :: xs => if x ≠ 0 then i :: idxWhereAux (i + 1) xs else idxWhereAux (i + 1) xs

def idxWhere (l : List ℕ) : List ℕ := idxWhereAux 0 l

/-- Successive differences of a list of indices. -/
def gapsOf : List ℕ → List ℕ
  | a :: b :: rest => (b - a) :: gapsOf (b :: rest)
  | _ => []

/-! ### Source read-region resolution of FGranularSynthOperator
(Execute, lines 487-514; duplicated in TryStartPlayback lines 736-759). -/

/-- Resolved read region of a reversed grain (lines 491-507): the conceptual
end position is the conceptual start wrapped into the file via Fmod, the
conceptual segment start is that end minus the source material needed
(output duration times frame ratio), and both ends are clamped into
[0, cachedDuration] before the segment is committed. -/
structure ReverseRegion where
  valid : Bool
  start : ℚ
  segEnd : ℚ
  numSourceFrames : ℤ
deriving Repr, DecidableEq

/-- ConceptualSegmentEndInSource (lines 497-498): the conceptual start
wrapped into the file by Fmod, shifted up by the duration when negative. -/
def revConceptEnd (conceptualStart cachedDur : ℚ) : ℚ :=
  let e0 := fmodQ conceptualStart cachedDur
  if e0 < 0 then e0 + cachedDur else e0

/-- ActualSegmentStart (lines 499-500). -/
def revSegStart (conceptualStart needed cachedDur : ℚ) : ℚ :=
  max 0 (revConceptEnd conceptualStart cachedDur - needed)

/-- ActualSegmentEnd after the zero-start special case (lines 501-502). -/
def revSegEnd (conceptualStart needed cachedDur : ℚ) : ℚ :=
  if revSegStart conceptualStart needed cachedDur = 0 ∧ 0 < needed
  then min cachedDur needed
  else min cachedDur (revConceptEnd conceptualStart cachedDur)

def resolveReverseRegion (conceptualStart outDurSeconds ratioQ cachedDur sampleRate : ℚ) :
    ReverseRegion :=
  let needed := outDurSeconds * ratioQ
  if needed < EpsilonQ then ⟨false, 0, 0, 0⟩
  else
    let aStart := revSegStart conceptualStart needed cachedDur
    let aEnd := revSegEnd conceptualStart needed cachedDur
    if aEnd - EpsilonQ ≤ aStart then ⟨false, aStart, aEnd, 0⟩
    else
      let n : ℤ := ⌈(aEnd - aStart) * sampleRate⌉
      if n ≤ 0 then ⟨false, aStart, aEnd, n⟩ else ⟨true, aStart, aEnd, n⟩

theorem revSegStart_nonneg (cs needed dur : ℚ) : 0 ≤ revSegStart cs needed dur :=
  le_max_left 0 _

theorem revSegEnd_le (cs needed dur : ℚ) : revSegEnd cs needed dur ≤ dur := by
  unfold revSegEnd
  split
  · exact min_le_left _ _
  · exact min_le_left _ _

/-- Resolved reader start time of a forward grain (lines 508-514): wrap the
conceptual start into the file via Fmod, cap it at
cachedDuration - MinGrainDurationSeconds, and clamp at 0. -/
def resolveForwardStart (conceptualStart cachedDur : ℚ) : ℚ :=
  let s0 := fmodQ conceptualStart cachedDur
  let s1 := if s0 < 0 then s0 + cachedDur else s0
  let s2 := min s1 (cachedDur - MinGrainDurationSecondsQ)
  max 0 s2

/-- Start-time clamp of the V3 TriggerGrain
(GranularWavePlayerSmoothNode.cpp lines 1106-1116): clamp the start at 0;
if start + duration overruns the file, move the start back to
cachedDuration - duration, rejecting the grain when that start is
nonpositive or the duration is below the minimum. Returns the committed
start time, or none when the grain is rejected. -/
def clampGrainStartV3 (startTime durSeconds cachedDur : ℚ) : Option ℚ :=
  let s := max 0 startTime
  if cachedDur < s + durSeconds then
    let s2 := max 0 (cachedDur - durSeconds)
    if s2 ≤ 0 ∨ durSeconds < MinGrainDurationSecondsQ then none else some s2
  else some s

/-! ### Per-voice reader settings (C7).

V1: FGranularSynthOperator::TriggerGrain lines 872-879. The reader is
non-looping exactly for reversed grains; the quantization and minimum decode
size come from the external FSoundWaveProxyReader constants.
V2: FGranularSynthOperator_Step8::TriggerGrain lines 1704-1711.
V3: GranularWavePlayerSmoothNode.cpp TriggerGrain lines 1118-1128;
its desired decode size also covers the whole grain. -/

structure ReaderSettingsM where
  startTimeInSeconds : ℚ
  bIsLooping : Bool
  maxDecodeSizeInFrames : ℕ
deriving Repr, DecidableEq

/-- Round x up to the next multiple of q: ((x + q - 1) / q) * q in ℕ. -/
def roundUpToMultiple (x q : ℕ) : ℕ := (x + q - 1) / q * q

def readerSettingsV1 (decodeQuant minDecode : ℕ) (startTime : ℚ) (isReversed : Bool) :
    ReaderSettingsM :=
  { startTimeInSeconds := max 0 startTime
    bIsLooping := !isReversed
    maxDecodeSizeInFrames := roundUpToMultiple (max DeinterleaveBlockSizeFramesN minDecode) decodeQuant }

def readerSettingsV2 (blockSize : ℕ) (startTime : ℚ) : ReaderSettingsM :=
  { startTimeInSeconds := max 0 startTime
    bIsLooping := false
    maxDecodeSizeInFrames := roundUpToMultiple (max (blockSize * 2) 128) 128 }

def readerSettingsV3 (blockSize grainDurationSamples : ℕ) (committedStart : ℚ) :
    ReaderSettingsM :=
  { startTimeInSeconds := committedStart
    bIsLooping := false
    maxDecodeSizeInFrames := roundUpToMultiple (max grainDurationSamples (blockSize * 2)) 128 }

theorem le_roundUpToMultiple (x q : ℕ) (hq : 0 < q) : x ≤ roundUpToMultiple x q := by
  unfold roundUpToMultiple
  have hd : (x + q - 1) / q * q + (x + q - 1) % q = x + q - 1 := Nat.div_add_mod' _ _
  have hm := Nat.mod_lt (x + q - 1) hq
  omega

theorem roundUpToMultiple_lt (x q : ℕ) (hq : 0 < q) : roundUpToMultiple x q < x + q := by
  unfold roundUpToMultiple
  have := Nat.div_mul_le_self (x + q - 1) q
  omega

theorem dvd_roundUpToMultiple (x q : ℕ) : q ∣ roundUpToMultiple x q :=
  Dvd.intro_left _ rfl

/-! ### Reversed-grain up-front read and realized duration
(FGranularSynthOperator::TriggerGrain lines 896-934). -/

structure ReverseSetupOut where
  activated : Bool
  readerHeldAfter : Bool
  totalSamples : ℤ
  remainingSamples : ℤ
deriving Repr, DecidableEq

/-- The reversed branch of TriggerGrain: pop the whole source segment up
front. A zero-frame read releases the reader and leaves the voice inactive
(lines 917-922). Otherwise the realized output length is
min(requested, max(1, ceil(framesActuallyRead / frameRatio))), forced to at
least 1, and the reader is released either way (line 923). -/
def reversedGrainSetup (reqOutSamples : ℤ) (framesActuallyRead : ℕ) (ratioQ : ℚ) :
    ReverseSetupOut :=
  if framesActuallyRead = 0 then ⟨false, false, 0, 0⟩
  else
    let maxOut : ℤ := max 1 ⌈(framesActuallyRead : ℚ) / ratioQ⌉
    let actual : ℤ := max 1 (min reqOutSamples maxOut)
    ⟨true, false, actual, actual⟩

/-! ### Envelope engine (C2).

The transcendental float routines are external: they are modelled by an
arbitrary function record, and the clamping claims hold for every such
record. -/

structure FloatFns where
  powQ : ℚ → ℚ → ℚ
  cosQ : ℚ → ℚ
  sinQ : ℚ → ℚ
  expQ : ℚ → ℚ
  piQ : ℚ

/-- Per-sample envelope of FGranularSynthOperator::Execute (lines 593-605):
exponential-curve attack/decay ramps. AttackSamples and DecaySamples are
ceilings of the total grain length times the (already clamped) percentages. -/
def envelopeScaleV1 (fns : FloatFns) (attackPct clampedDecayPct aCurve dCurve : ℚ)
    (cur total : ℤ) : ℚ :=
  let aS : ℤ := ⌈(total : ℚ) * attackPct⌉
  let dS : ℤ := ⌈(total : ℚ) * clampedDecayPct⌉
  if cur < aS then
    fns.powQ (if 0 < aS then (cur : ℚ) / (aS : ℚ) else 1) aCurve
  else if total - dS ≤ cur then
    fns.powQ (if 0 < dS then ((total - cur : ℤ) : ℚ) / (dS : ℚ) else 0) dCurve
  else 1

/-- Line 606: the envelope is clamped to [0,1] and only then multiplied into
the (already volume-scaled) mono sample. -/
def renderedSampleV1 (fns : FloatFns) (attackPct clampedDecayPct aCurve dCurve : ℚ)
    (cur total : ℤ) (monoSample : ℚ) : ℚ :=
  monoSample * clampQ (envelopeScaleV1 fns attackPct clampedDecayPct aCurve dCurve cur total) 0 1

/-- Window shapes of the V3 operator (GranularWavePlayerSmoothNode.cpp
lines 118-128). -/
inductive WindowShape
  | linear
  | parabolic
  | gaussian
  | cosine
  | hann
  | blackman
  | triangular
  | rectangular
deriving Repr, DecidableEq

/-- Window-shape selector clamp and dispatch (lines 540-541). -/
def windowShapeOfIndex (i : ℤ) : WindowShape :=
  let c := min (max i 0) 7
  if c = 0 then .linear
  else if c = 1 then .parabolic
  else if c = 2 then .gaussian
  else if c = 3 then .cosine
  else if c = 4 then .hann
  else if c = 5 then .blackman
  else if c = 6 then .triangular
  else .rectangular

/-- Raw (pre-clamp) per-sample envelope of the V3 operator
(GranularWavePlayerSmoothNode.cpp lines 798-912), with the adaptive
attack/decay scaling of lines 803-809 applied for the ramp shapes. -/
def envelopeRawV3 (fns : FloatFns) (shape : WindowShape) (xfadeIx : ℤ)
    (attackPct clampedDecayPct overlap smoothing phaseOff : ℚ) (cur total : ℤ) : ℚ :=
  let overlapComp := min 1 (1 / overlap)
  let aPct := clampQ (attackPct * overlapComp) (5 / 100) (95 / 100)
  let dPct := clampQ (clampedDecayPct * overlapComp) (5 / 100) (95 / 100)
  let aS : ℤ := ⌈(total : ℚ) * aPct⌉
  let dS : ℤ := ⌈(total : ℚ) * dPct⌉
  match shape with
  | .linear =>
    if cur < aS then (if 0 < aS then (cur : ℚ) / (aS : ℚ) else 1)
    else if total - dS ≤ cur then (if 0 < dS then ((total - cur : ℤ) : ℚ) / (dS : ℚ) else 0)
    else 1
  | .parabolic =>
    if cur < aS then
      let t := if 0 < aS then (cur : ℚ) / (aS : ℚ) else 1
      t * t
    else if total - dS ≤ cur then
      let t := if 0 < dS then ((total - cur : ℤ) : ℚ) / (dS : ℚ) else 0
      t * t
    else 1
  | .gaussian =>
    let center := (total : ℚ) * (1 / 2 + smoothing * (1 / 10))
    let width := (total : ℚ) * (1 / 4 + smoothing * (1 / 10))
    fns.expQ (-(1 / 2) * (((cur : ℚ) - center) / width) ^ 2)
  | .cosine =>
    let phase := fns.piQ * (cur : ℚ) / (total : ℚ)
    1 / 2 * (1 - fns.cosQ (2 * phase))
  | .hann =>
    let phaseOffset := phaseOff * fns.piQ * (1 / 4)
    let normPos := (cur : ℚ) / (total : ℚ)
    let phase := fns.piQ * normPos + phaseOffset
    if xfadeIx = 0 then 1 / 2 * (1 - fns.cosQ (2 * phase))
    else if xfadeIx = 1 then fns.sinQ phase * fns.sinQ phase
    else if xfadeIx = 2 then
      fns.powQ (1 / 2 * (1 - fns.cosQ (2 * phase))) (7 / 10 + 6 / 10 * smoothing)
    else 1
  | .blackman =>
    let x := (cur : ℚ) / (total : ℚ)
    42 / 100 - 1 / 2 * fns.cosQ (2 * fns.piQ * x) + 8 / 100 * fns.cosQ (4 * fns.piQ * x)
  | .triangular =>
    let x := (cur : ℚ) / (total : ℚ)
    1 - |2 * x - 1|
  | .rectangular => 1

/-- The softening pass (lines 915-919) followed by the final clamp to [0,1]
(line 921). -/
def envelopeClampedV3 (fns : FloatFns) (shape : WindowShape) (xfadeIx : ℤ)
    (attackPct clampedDecayPct overlap smoothing phaseOff : ℚ) (cur total : ℤ) : ℚ :=
  let raw := envelopeRawV3 fns shape xfadeIx attackPct clampedDecayPct overlap
      smoothing phaseOff cur total
  let soft := if 0 < smoothing ∧ 0 < raw ∧ raw < 1
      then fns.powQ raw (1 - smoothing * (3 / 10)) else raw
  clampQ soft 0 1

/-- Line 922: the clamped envelope is multiplied into the mono sample. -/
def renderedSampleV3 (fns : FloatFns) (shape : WindowShape) (xfadeIx : ℤ)
    (attackPct clampedDecayPct overlap smoothing phaseOff : ℚ) (cur total : ℤ)
    (monoSample : ℚ) : ℚ :=
  monoSample * envelopeClampedV3 fns shape xfadeIx attackPct clampedDecayPct overlap
      smoothing phaseOff cur total

/-! ### Equal-power panning mixer (C8), over the reals.

V3 Execute lines 925-934, and V1 Execute lines 619-624 where the volume
scale is folded into the mono sample at line 591 instead of into the gains. -/

/-- PanAngle = (pan + 1) * 0.5 * UE_PI * 0.5. -/
noncomputable def panAngle (pan : ℝ) : ℝ := (pan + 1) * (1 / 2) * Real.pi * (1 / 2)

noncomputable def leftGainV3 (pan vol : ℝ) : ℝ := Real.cos (panAngle pan) * vol

noncomputable def rightGainV3 (pan vol : ℝ) : ℝ := Real.sin (panAngle pan) * vol

/-- Audio::ArrayMixIn(src, dst, gain): dst accumulates src * gain, it is not
overwritten. -/
noncomputable def arrayMixIn (src dst : List ℝ) (gain : ℝ) : List ℝ :=
  List.zipWith (fun s d => d + s * gain) src dst

/-! ### Block execution model of FGranularSynthOperator (V1).

State, parameter snapshot and per-block environment. External collaborators
(wave probe, per-voice reader creation, the up-front reversed read, the
decode/resample pipeline of each voice, the random generator) are oracle
fields; the model records what Execute does with their answers. -/

/-- The wave-bound part of the operator state: CurrentWaveProxy (identified
by a number), CachedSoundWaveDuration, CurrentNumChannels, and the
deinterleaver handle. -/
structure WaveState where
  currentProxy : Option ℕ
  cachedDuration : ℚ
  numChannels : ℤ
  hasDeinterleave : Bool
deriving Repr, DecidableEq

/-- The wave state after any failure path of InitializeWaveData or the
session teardown (all of which reset proxy, duration, channels and the
deinterleaver). -/
def clearedWave : WaveState := ⟨none, 0, 0, false⟩

structure SynthState where
  bIsPlaying : Bool
  samplesUntilNextGrain : ℚ
  voices : List VoiceM
  wave : WaveState
deriving Repr, DecidableEq

structure Events where
  onPlay : List ℤ
  onFinished : List ℤ
  onGrain : List ℤ
deriving Repr, DecidableEq

def noEvents : Events := ⟨[], [], []⟩

def addPlay (ev : Events) (f : ℤ) : Events := { ev with onPlay := ev.onPlay ++ [f] }

def addFinished (ev : Events) (f : ℤ) : Events :=
  { ev with onFinished := ev.onFinished ++ [f] }

def addGrain (ev : Events) (f : ℤ) : Events := { ev with onGrain := ev.onGrain ++ [f] }

/-- The parameter pins of the V1 node, one snapshot per block. -/
structure ParamsV1 where
  grainDurationMs : ℚ
  durationRandMs : ℚ
  activeVoicesP : ℚ
  timeJitterPct : ℚ
  startPointSeconds : ℚ
  startPointRandMs : ℚ
  reverseChance : ℚ
  attackTimePercent : ℚ
  decayTimePercent : ℚ
  attackCurve : ℚ
  decayCurve : ℚ
  pitchShift : ℚ
  pitchRand : ℚ
  pan : ℚ
  panRand : ℚ
  volumeRand : ℚ
  warmStart : Bool

/-- Operator settings fixed at construction (lines 164-165). -/
structure OpConfig where
  sampleRate : ℚ
  blockSize : ℤ

/-- Per-block environment: parameter snapshot, trigger frames, and the
oracles for external collaborators. The u-streams are per-call-site unit
randoms indexed by the grain counted within the block; voiceContrib gives
the enveloped, panned per-frame output of the abstracted per-voice
decode/resample/envelope pipeline. -/
structure BlockEnv where
  params : ParamsV1
  stopFrames : List ℤ
  playFrames : List ℤ
  inputProxy : Option ℕ
  assetValid : Bool
  initReaderOk : Bool
  initNumChannels : ℤ
  initDurationSeconds : ℚ
  initDeinterleaveOk : Bool
  readerCreateOk : ℕ → Bool
  reverseFramesRead : ℕ → ℕ
  fns : FloatFns
  uStart : ℕ → ℚ
  uDur : ℕ → ℚ
  uPitch : ℕ → ℚ
  uRev : ℕ → ℚ
  uPan : ℕ → ℚ
  uVol : ℕ → ℚ
  uJitter : ℕ → ℚ
  voiceContribL : ℕ → ℕ → ℚ
  voiceContribR : ℕ → ℕ → ℚ

/-- InitializeWaveData (lines 801-836): probe the proxy with a temporary
reader; cache duration and channel count; build the deinterleaver. Every
failure resets the whole wave state. The probed values are environment
oracles (the probe reader is an external collaborator). -/
structure InitOut where
  ok : Bool
  ws : WaveState
deriving Repr, DecidableEq

def initWaveData (env : BlockEnv) (p : ℕ) : InitOut :=
  if env.initReaderOk = false then ⟨false, clearedWave⟩
  else if env.initNumChannels ≤ 0 ∨ env.initDurationSeconds ≤ 0 then ⟨false, clearedWave⟩
  else if env.initDeinterleaveOk = false then ⟨false, clearedWave⟩
  else ⟨true, ⟨some p, env.initDurationSeconds, env.initNumChannels, true⟩⟩

/-- Success conditions of InitializeWaveData in terms of the environment. -/
def initWaveDataOkP (env : BlockEnv) : Prop :=
  env.initReaderOk = true ∧ 0 < env.initNumChannels ∧ 0 < env.initDurationSeconds ∧
    env.initDeinterleaveOk = true

theorem initWaveData_ok_iff (env : BlockEnv) (p : ℕ) :
    (initWaveData env p).ok = true ↔ initWaveDataOkP env := by
  unfold initWaveData initWaveDataOkP
  constructor
  · intro h
    by_cases h1 : env.initReaderOk = false
    · simp [h1] at h
    · by_cases h2 : env.initNumChannels ≤ 0 ∨ env.initDurationSeconds ≤ 0
      · simp [h1, h2] at h
      · by_cases h3 : env.initDeinterleaveOk = false
        · simp [h1, h2, h3] at h
        · push_neg at h2
          exact ⟨by simpa using h1, by omega, by linarith [h2.2], by simpa using h3⟩
  · intro ⟨h1, h2, h3, h4⟩
    rw [if_neg (by simp [h1]), if_neg (by push_neg; exact ⟨by omega, by linarith⟩),
      if_neg (by simp [h4])]

/-- A grain's fully resolved parameters (lines 473-526; the identical warm
start copy is lines 718-759). rIx is the index of the grain within the block,
used to draw its randoms and its reader/read oracles. -/
structure ResolvedGrain where
  rIx : ℕ
  valid : Bool
  reversed : Bool
  startTimeQ : ℚ
  srcFrames : ℤ
  outDurationSeconds : ℚ
  outDurationSamples : ℤ
  ratioQ : ℚ
  panQ : ℚ
  volQ : ℚ
  pitchQ : ℚ

/-- Per-grain parameter resolution of FGranularSynthOperator::Execute
(lines 434-453 parameter snapshot, lines 473-526 per-grain draws and
region resolution). FRandRange(a, b) is a + (b - a) u. -/
def resolveGrainV1 (env : BlockEnv) (sampleRate cachedDur : ℚ) (k : ℕ) : ResolvedGrain :=
  let p := env.params
  let baseDur := max MinGrainDurationSecondsQ (p.grainDurationMs / 1000)
  let maxDurRand := max 0 (p.durationRandMs / 1000)
  let maxStartRandMs := max 0 p.startPointRandMs
  let revChance := clampQ p.reverseChance 0 100
  let basePitch := clampQ p.pitchShift (-MaxAbsPitchShiftSemitonesQ) MaxAbsPitchShiftSemitonesQ
  let pitchRand := max 0 p.pitchRand
  let basePan := clampQ p.pan (-1) 1
  let panRandAmt := clampQ p.panRand 0 1
  let volRandPct := clampQ p.volumeRand 0 100
  let conceptual := p.startPointSeconds + (maxStartRandMs / 1000) * env.uStart k
  let outDurS := max MinGrainDurationSecondsQ (baseDur + maxDurRand * env.uDur k)
  let outSamples : ℤ := max 1 ⌈outDurS * sampleRate⌉
  let pitch := clampQ (basePitch + (-pitchRand + 2 * pitchRand * env.uPitch k))
      (-MaxAbsPitchShiftSemitonesQ) MaxAbsPitchShiftSemitonesQ
  let ratioQ := max SmallNumberQ (env.fns.powQ 2 (pitch / 12))
  let reversed := 100 * env.uRev k < revChance
  let panQ := clampQ (basePan + (-panRandAmt + 2 * panRandAmt * env.uPan k)) (-1) 1
  let minVol := 1 - volRandPct / 100
  let volQ := minVol + (1 - minVol) * env.uVol k
  if reversed then
    let rr := resolveReverseRegion conceptual outDurS ratioQ cachedDur sampleRate
    ⟨k, rr.valid, true, rr.start, rr.numSourceFrames, outDurS, outSamples, ratioQ, panQ, volQ, pitch⟩
  else
    ⟨k, true, false, resolveForwardStart conceptual cachedDur, 0, outDurS, outSamples,
      ratioQ, panQ, volQ, pitch⟩

/-- TriggerGrain (lines 838-941): pre-checks, first-inactive-slot scan,
reader creation, then the forward or reversed voice initialization. The
voice becomes active only after every step has succeeded; on any failure the
pool's activity flags are untouched (the code writes only scratch fields of
the still-inactive slot). -/
def triggerGrainV1 (env : BlockEnv) (ws : WaveState) (rg : ResolvedGrain)
    (vs : List VoiceM) : Bool × List VoiceM :=
  if ws.currentProxy.isNone ∨ ws.numChannels ≤ 0 ∨
      ws.cachedDuration < MinGrainDurationSecondsQ then (false, vs)
  else if rg.outDurationSamples ≤ 0 then (false, vs)
  else if rg.reversed ∧ rg.srcFrames ≤ 0 then (false, vs)
  else
    match vs.findIdx? (fun v => !v.bIsActive) with
    | none => (false, vs)
    | some i =>
      if env.readerCreateOk rg.rIx = false then (false, vs)
      else if rg.reversed then
        let ro := reversedGrainSetup rg.outDurationSamples (env.reverseFramesRead rg.rIx) rg.ratioQ
        if ro.activated = false then (false, vs)
        else
          (true, vs.set i
            { bIsActive := true, numChannels := ws.numChannels,
              samplesRemaining := ro.remainingSamples, samplesPlayed := 0,
              totalGrainSamples := ro.totalSamples, panPosition := rg.panQ,
              volumeScale := rg.volQ, bIsReversed := true,
              hasReader := false, hasResampler := true })
      else
        (true, vs.set i
          { bIsActive := true, numChannels := ws.numChannels,
            samplesRemaining := rg.outDurationSamples, samplesPlayed := 0,
            totalGrainSamples := rg.outDurationSamples, panPosition := rg.panQ,
            volumeScale := rg.volQ, bIsReversed := false,
            hasReader := true, hasResampler := true })

/-- The warm-start grain burst inside TryStartPlayback (lines 716-778):
up to the derived voice count, resolve and trigger grains; each success
emits OnGrain at the play frame. Returns voices, events and the next grain
index. -/
def warmLoop (cfg : OpConfig) (env : BlockEnv) (frame : ℤ) (ws : WaveState) :
    ℕ → ℕ → List VoiceM → Events → List VoiceM × Events × ℕ
  | 0, g, vs, ev => (vs, ev, g)
  | m + 1, g, vs, ev =>
    let rg := resolveGrainV1 env cfg.sampleRate ws.cachedDuration g
    if rg.valid = false then warmLoop cfg env frame ws m (g + 1) vs ev
    else
      let tr := triggerGrainV1 env ws rg vs
      if tr.1 then warmLoop cfg env frame ws m (g + 1) tr.2 (addGrain ev frame)
      else warmLoop cfg env frame ws m (g + 1) tr.2 ev

structure StartOut where
  ok : Bool
  st : SynthState
  ev : Events
  grainIx : ℕ

/-- TryStartPlayback (lines 661-799): validate asset and proxy, initialize
wave data (any failure clears the session state and reports failure without
emitting OnFinished itself); on success reset the voices, emit OnPlay, and
either warm-start or schedule the first grain immediately. -/
def tryStartPlaybackV1 (cfg : OpConfig) (env : BlockEnv) (frame : ℤ)
    (st : SynthState) (ev : Events) (gIx : ℕ) : StartOut :=
  let stf := { st with bIsPlaying := false }
  if env.assetValid = false then
    ⟨false, { stf with voices := resetVoices stf.voices, wave := clearedWave }, ev, gIx⟩
  else
    match env.inputProxy with
    | none => ⟨false, { stf with voices := resetVoices stf.voices, wave := clearedWave }, ev, gIx⟩
    | some p =>
      let iw := initWaveData env p
      if iw.ok = false then
        ⟨false, { stf with voices := resetVoices stf.voices, wave := iw.ws }, ev, gIx⟩
      else
        let st1 := { stf with
          bIsPlaying := true
          voices := resetVoices stf.voices
          wave := iw.ws }
        let ev1 := addPlay ev frame
        if env.params.warmStart = true ∧ iw.ws.currentProxy.isSome = true ∧
            MinGrainDurationSecondsQ ≤ iw.ws.cachedDuration ∧ 0 < cfg.sampleRate then
          let n0 : ℤ := ⌊env.params.activeVoicesP⌋
          let n1 : ℤ := if env.params.activeVoicesP < 1 ∧ 0 < env.params.activeVoicesP
              then 1 else n0
          let n : ℕ := (min (max n1 0) (MaxGrainVoicesN : ℤ)).toNat
          let wl := warmLoop cfg env frame iw.ws n gIx st1.voices ev1
          let base := baseSamplesPerGrainIntervalV1 env.params.grainDurationMs
              env.params.activeVoicesP cfg.sampleRate
          let c := if base < FloatMaxQ then base else FloatMaxQ
          ⟨true, { st1 with voices := wl.1, samplesUntilNextGrain := c }, wl.2.1, wl.2.2⟩
        else
          ⟨true, { st1 with samplesUntilNextGrain := 0 }, ev1, gIx⟩

/-- Accumulated outcome of trigger processing at the top of Execute. -/
structure TrigOut where
  st : SynthState
  ev : Events
  stopPending : Bool
  stopFrame : Option ℤ
  grainIx : ℕ

/-- The Play-trigger loop (lines 381-393): every Play frame attempts a
start; failure emits OnFinished at that frame and forces Stopped; either
outcome cancels a pending Stop. -/
def processPlays (cfg : OpConfig) (env : BlockEnv) : List ℤ → TrigOut → TrigOut
  | [], a => a
  | f :: rest, a =>
    let r := tryStartPlaybackV1 cfg env f a.st a.ev a.grainIx
    if r.ok then
      processPlays cfg env rest ⟨r.st, r.ev, false, a.stopFrame, r.grainIx⟩
    else
      processPlays cfg env rest
        ⟨{ r.st with bIsPlaying := false }, addFinished r.ev f, false, a.stopFrame, r.grainIx⟩

/-- The Stop commit of lines 395-400: a Stop that is still pending after the
Play loop, received while playing, drops every voice and emits OnFinished at
the stop frame. -/
def stopCommit (a : TrigOut) : TrigOut :=
  match a.stopFrame with
  | some sf =>
    if a.stopPending = true ∧ a.st.bIsPlaying = true then
      { a with
        st := { a.st with bIsPlaying := false, voices := resetVoices a.st.voices }
        ev := addFinished a.ev sf }
    else a
  | none => a

/-- Trigger processing of Execute (lines 375-400): note the first Stop frame
while playing, run all Play frames, then commit a still-pending Stop. -/
def triggerStage (cfg : OpConfig) (env : BlockEnv) (st0 : SynthState) : TrigOut :=
  let stopOpt := if st0.bIsPlaying then env.stopFrames.head? else none
  stopCommit (processPlays cfg env env.playFrames ⟨st0, noEvents, stopOpt.isSome, stopOpt, 0⟩)

/-- Per-frame accumulation of one voice's contribution into one output
channel: the first `frames` samples of the channel gain contributions are
added on top of the existing buffer contents (Audio::ArrayMixIn semantics,
lines 619-624). -/
def addContrib (c : ℕ → ℚ) (frames : ℕ) : ℕ → List ℚ → List ℚ
  | _, [] => []
  | f, x :: xs => (if f < frames then x + c f else x) :: addContrib c frames (f + 1) xs

structure RenderOut where
  voices : List VoiceM
  bufL : List ℚ
  bufR : List ℚ

/-- The active-voice rendering loop (lines 544-630): each active voice
processes min(BlockSize, SamplesRemaining) output frames, mixes its
contribution on top of the output buffers, advances its counters, and is
deactivated (reader and resampler released) when its remaining count is
exhausted. The per-frame mixed values are environment oracles since they
pass through the external decode/resample pipeline. -/
def renderVoices (env : BlockEnv) (n : ℕ) : ℕ → List VoiceM → List ℚ → List ℚ → RenderOut
  | _, [], l, r => ⟨[], l, r⟩
  | i, v :: vs, l, r =>
    if v.bIsActive = false then
      let o := renderVoices env n (i + 1) vs l r
      ⟨v :: o.voices, o.bufL, o.bufR⟩
    else
      let frames : ℤ := max 0 (min (n : ℤ) v.samplesRemaining)
      if frames ≤ 0 then
        let v2 := { v with bIsActive := false, hasReader := false, hasResampler := false }
        let o := renderVoices env n (i + 1) vs l r
        ⟨v2 :: o.voices, o.bufL, o.bufR⟩
      else
        let l1 := addContrib (env.voiceContribL i) frames.toNat 0 l
        let r1 := addContrib (env.voiceContribR i) frames.toNat 0 r
        let sr := v.samplesRemaining - frames
        let v2 := if sr ≤ 0 then
            { v with
              samplesPlayed := v.samplesPlayed + frames
              samplesRemaining := sr
              bIsActive := false
              hasReader := false
              hasResampler := false }
          else
            { v with samplesPlayed := v.samplesPlayed + frames, samplesRemaining := sr }
        let o := renderVoices env n (i + 1) vs l1 r1
        ⟨v2 :: o.voices, o.bufL, o.bufR⟩

/-- The grain-trigger loop of Execute (lines 471-542): for each counted
grain, resolve parameters; invalid segments are skipped; a successful
TriggerGrain emits OnGrain at the approximated in-block frame computed from
the final counter (lines 530-531). `total` is the number of grains counted
this block and `counterAfter` the counter value after the subtraction. -/
def mainGrainLoop (cfg : OpConfig) (env : BlockEnv) (n : ℕ) (base counterAfter : ℚ)
    (total : ℕ) (ws : WaveState) : ℕ → ℕ → List VoiceM → Events → List VoiceM × Events × ℕ
  | 0, g, vs, ev => (vs, ev, g)
  | m + 1, g, vs, ev =>
    let i := total - (m + 1)
    let rg := resolveGrainV1 env cfg.sampleRate ws.cachedDuration g
    if rg.valid = false then mainGrainLoop cfg env n base counterAfter total ws m (g + 1) vs ev
    else
      let tr := triggerGrainV1 env ws rg vs
      if tr.1 then
        let spacing := if EpsilonQ < base then base else ((rg.outDurationSamples : ℤ) : ℚ)
        let approx := (n : ℚ) - (counterAfter + ((total : ℤ) - 1 - (i : ℤ) : ℤ) * spacing)
        let tf : ℤ := min (max (truncQ approx) 0) ((n : ℤ) - 1)
        mainGrainLoop cfg env n base counterAfter total ws m (g + 1) tr.2 (addGrain ev tf)
      else mainGrainLoop cfg env n base counterAfter total ws m (g + 1) tr.2 ev

/-- Result of one Execute call. waveJustChanged, mixBase and mixVoices are
observation fields recording, when the mixing stage is reached, whether the
wave asset changed this block, the buffer contents mixing started from, and
the voice pool at the start of mixing. -/
structure BlockResult where
  state : SynthState
  outL : List ℚ
  outR : List ℚ
  events : Events
  waveJustChanged : Option Bool := none
  mixBaseL : List ℚ := []
  mixBaseR : List ℚ := []
  mixVoices : List VoiceM := []

def zerosB (n : ℕ) : List ℚ := List.replicate n 0

/-- The stop-and-zero path shared by the wave-change failure, the
invalid-input-proxy detection and the sanity check (lines 417-432). -/
def stopFailResult (n : ℕ) (st : SynthState) (ev : Events) : BlockResult :=
  { state := { st with bIsPlaying := false, voices := resetVoices st.voices },
    outL := zerosB n, outR := zerosB n, events := addFinished ev 0 }

/-- The playing part of Execute after trigger processing: wave-asset change
handling (lines 412-426), sanity checks (line 428), output zeroing except in
a wave-change block (line 457), scheduling (lines 459-469), grain triggering
(lines 471-542), and voice rendering/mixing (lines 544-630). -/
def mixStage (cfg : OpConfig) (env : BlockEnv) (ev0 : Events) (gIx : ℕ)
    (st2 : SynthState) (waveChanged : Bool) (prevL prevR : List ℚ) : BlockResult :=
  let n := cfg.blockSize.toNat
  if st2.wave.numChannels ≤ 0 ∨ st2.wave.hasDeinterleave = false ∨
      st2.wave.cachedDuration < MinGrainDurationSecondsQ then
    stopFailResult n st2 ev0
  else
    let base := baseSamplesPerGrainIntervalV1 env.params.grainDurationMs
        env.params.activeVoicesP cfg.sampleRate
    let jitPct := clampQ env.params.timeJitterPct 0 100
    let s := schedStepV1 base jitPct env.uJitter st2.samplesUntilNextGrain (n : ℚ)
    let gl := mainGrainLoop cfg env n base s.2 s.1 st2.wave s.1 gIx st2.voices ev0
    let mbL := if waveChanged then prevL else zerosB n
    let mbR := if waveChanged then prevR else zerosB n
    let r := renderVoices env n 0 gl.1 mbL mbR
    { state := { st2 with samplesUntilNextGrain := s.2, voices := r.voices }
      outL := r.bufL
      outR := r.bufR
      events := gl.2.1
      waveJustChanged := some waveChanged
      mixBaseL := mbL
      mixBaseR := mbR
      mixVoices := gl.1 }

def playingStage (cfg : OpConfig) (env : BlockEnv) (t : TrigOut)
    (prevL prevR : List ℚ) : BlockResult :=
  let n := cfg.blockSize.toNat
  let st := t.st
  match env.inputProxy with
  | some p =>
    if st.wave.currentProxy ≠ some p then
      let iw := initWaveData env p
      if iw.ok = false then stopFailResult n { st with wave := iw.ws } t.ev
      else mixStage cfg env t.ev t.grainIx { st with wave := iw.ws } true prevL prevR
    else mixStage cfg env t.ev t.grainIx st false prevL prevR
  | none =>
    if st.wave.currentProxy.isSome then stopFailResult n st t.ev
    else mixStage cfg env t.ev t.grainIx st false prevL prevR

/-- One call of FGranularSynthOperator::Execute (lines 361-631). -/
def executeBlock (cfg : OpConfig) (env : BlockEnv) (st0 : SynthState)
    (prevL prevR : List ℚ) : BlockResult :=
  if cfg.blockSize ≤ 0 then
    { state := { st0 with bIsPlaying := false }
      outL := []
      outR := []
      events :=
        { onPlay := []
          onFinished := if st0.bIsPlaying then [0] else []
          onGrain := [] } }
  else
    let t := triggerStage cfg env st0
    if t.st.bIsPlaying = false then
      let n := cfg.blockSize.toNat
      let needsClear := t.st.wave.currentProxy.isSome ∨ 0 < t.st.wave.numChannels ∨
          t.st.wave.hasDeinterleave = true
      { state := { t.st with
          voices := if needsClear then resetVoices t.st.voices else t.st.voices,
          wave := if needsClear then clearedWave else t.st.wave },
        outL := zerosB n, outR := zerosB n, events := t.ev }
    else playingStage cfg env t prevL prevR

/-! ### Helper lemmas: the voice pool keeps its fixed size through every
operation of a block, and allocation touches only the first inactive slot. -/

theorem length_triggerGrainV1 (env : BlockEnv) (ws : WaveState) (rg : ResolvedGrain)
    (vs : List VoiceM) : (triggerGrainV1 env ws rg vs).2.length = vs.length := by
  unfold triggerGrainV1
  split
  · rfl
  · split
    · rfl
    · split
      · rfl
      · split
        · rfl
        · next i _ =>
          split
          · rfl
          · dsimp only
            split
            · split
              · rfl
              · simp
            · simp

theorem triggerGrainV1_full (env : BlockEnv) (ws : WaveState) (rg : ResolvedGrain)
    (vs : List VoiceM) (h : ∀ v ∈ vs, v.bIsActive = true) :
    triggerGrainV1 env ws rg vs = (false, vs) := by
  unfold triggerGrainV1
  split
  · rfl
  · split
    · rfl
    · split
      · rfl
      · rw [findIdx?_none_spec vs h]

theorem triggerGrainV1_no_preempt (env : BlockEnv) (ws : WaveState) (rg : ResolvedGrain)
    (vs : List VoiceM) (j : ℕ) (hact : (vs.getD j defaultVoice).bIsActive = true) :
    ((triggerGrainV1 env ws rg vs).2).getD j defaultVoice = vs.getD j defaultVoice := by
  unfold triggerGrainV1
  split
  · rfl
  · split
    · rfl
    · split
      · rfl
      · split
        · rfl
        · next i hfind =>
          have hspec := findIdx?_inactive_spec vs i hfind
          have hne : i ≠ j := by
            intro he
            rw [he] at hspec
            rw [hspec.2] at hact
            exact Bool.false_ne_true hact
          split
          · rfl
          · dsimp only
            split
            · split
              · rfl
              · exact getD_set_ne vs i j _ defaultVoice hne
            · exact getD_set_ne vs i j _ defaultVoice hne

theorem length_warmLoop (cfg : OpConfig) (env : BlockEnv) (frame : ℤ) (ws : WaveState) :
    ∀ (m g : ℕ) (vs : List VoiceM) (ev : Events),
      (warmLoop cfg env frame ws m g vs ev).1.length = vs.length := by
  intro m
  induction m with
  | zero => intro g vs ev; rfl
  | succ m ih =>
    intro g vs ev
    unfold warmLoop
    dsimp only
    split
    · exact ih _ _ _
    · split
      · rw [ih]
        exact length_triggerGrainV1 env ws _ vs
      · rw [ih]
        exact length_triggerGrainV1 env ws _ vs

theorem length_tryStartPlaybackV1 (cfg : OpConfig) (env : BlockEnv) (frame : ℤ)
    (st : SynthState) (ev : Events) (gIx : ℕ) :
    (tryStartPlaybackV1 cfg env frame st ev gIx).st.voices.length = st.voices.length := by
  unfold tryStartPlaybackV1
  dsimp only
  split
  · exact length_resetVoices _
  · split
    · exact length_resetVoices _
    · split
      · exact length_resetVoices _
      · split
        · rw [length_warmLoop]
          exact length_resetVoices _
        · exact length_resetVoices _

theorem length_processPlays (cfg : OpConfig) (env : BlockEnv) :
    ∀ (fs : List ℤ) (a : TrigOut),
      (processPlays cfg env fs a).st.voices.length = a.st.voices.length := by
  intro fs
  induction fs with
  | nil => intro a; rfl
  | cons f rest ih =>
    intro a
    unfold processPlays
    dsimp only
    split
    · rw [ih]
      exact length_tryStartPlaybackV1 cfg env f a.st a.ev a.grainIx
    · rw [ih]
      exact length_tryStartPlaybackV1 cfg env f a.st a.ev a.grainIx

theorem length_stopCommit (a : TrigOut) :
    (stopCommit a).st.voices.length = a.st.voices.length := by
  unfold stopCommit
  split
  · split
    · dsimp only
      exact length_resetVoices _
    · rfl
  · rfl

theorem length_triggerStage (cfg : OpConfig) (env : BlockEnv) (st0 : SynthState) :
    (triggerStage cfg env st0).st.voices.length = st0.voices.length := by
  unfold triggerStage
  dsimp only
  rw [length_stopCommit]
  exact length_processPlays cfg env env.playFrames _

theorem length_mainGrainLoop (cfg : OpConfig) (env : BlockEnv) (n : ℕ)
    (base counterAfter : ℚ) (total : ℕ) (ws : WaveState) :
    ∀ (m g : ℕ) (vs : List VoiceM) (ev : Events),
      (mainGrainLoop cfg env n base counterAfter total ws m g vs ev).1.length = vs.length := by
  intro m
  induction m with
  | zero => intro g vs ev; rfl
  | succ m ih =>
    intro g vs ev
    unfold mainGrainLoop
    dsimp only
    split
    · exact ih _ _ _
    · split
      · rw [ih]
        exact length_triggerGrainV1 env ws _ vs
      · rw [ih]
        exact length_triggerGrainV1 env ws _ vs

theorem length_renderVoices (env : BlockEnv) (n : ℕ) :
    ∀ (i : ℕ) (vs : List VoiceM) (l r : List ℚ),
      (renderVoices env n i vs l r).voices.length = vs.length := by
  intro i vs
  induction vs generalizing i with
  | nil => intro l r; rfl
  | cons v rest ih =>
    intro l r
    unfold renderVoices
    dsimp only
    split
    · simp only [List.length_cons]
      rw [ih]
    · split
      · simp only [List.length_cons]
        rw [ih]
      · simp only [List.length_cons]
        rw [ih]

theorem length_mixStage_voices (cfg : OpConfig) (env : BlockEnv) (ev0 : Events)
    (gIx : ℕ) (st2 : SynthState) (wc : Bool) (prevL prevR : List ℚ) :
    (mixStage cfg env ev0 gIx st2 wc prevL prevR).state.voices.length
      = st2.voices.length := by
  unfold mixStage
  dsimp only
  split
  · simp only [stopFailResult]
    exact length_resetVoices _
  · rw [length_renderVoices]
    rw [length_mainGrainLoop]

theorem length_playingStage (cfg : OpConfig) (env : BlockEnv) (t : TrigOut)
    (prevL prevR : List ℚ) :
    (playingStage cfg env t prevL prevR).state.voices.length = t.st.voices.length := by
  unfold playingStage
  dsimp only
  split
  · next p =>
    split
    · split
      · simp only [stopFailResult]
        exact length_resetVoices _
      · exact length_mixStage_voices cfg env t.ev t.grainIx _ true prevL prevR
    · exact length_mixStage_voices cfg env t.ev t.grainIx _ false prevL prevR
  · split
    · simp only [stopFailResult]
      exact length_resetVoices _
    · exact length_mixStage_voices cfg env t.ev t.grainIx _ false prevL prevR

/-! ### Mixing is accumulation: rendering into a buffer equals rendering
into silence and adding the result pointwise on top of the buffer. -/

theorem length_addContrib (c : ℕ → ℚ) (fr : ℕ) :
    ∀ (f : ℕ) (l : List ℚ), (addContrib c fr f l).length = l.length := by
  intro f l
  induction l generalizing f with
  | nil => rfl
  | cons x xs ih =>
    unfold addContrib
    simp only [List.length_cons]
    rw [ih]

theorem addContrib_zipWith (c : ℕ → ℚ) (fr : ℕ) :
    ∀ (a b : List ℚ) (f : ℕ), a.length = b.length →
      addContrib c fr f (List.zipWith (· + ·) a b)
        = List.zipWith (· + ·) a (addContrib c fr f b) := by
  intro a
  induction a with
  | nil =>
    intro b f h
    have : b = [] := List.eq_nil_of_length_eq_zero h.symm
    subst this
    rfl
  | cons x xs ih =>
    intro b f h
    match b with
    | [] => simp at h
    | y :: ys =>
      simp only [List.length_cons, Nat.succ_inj] at h
      show addContrib c fr f ((x + y) :: List.zipWith (· + ·) xs ys) = _
      unfold addContrib
      rw [ih ys (f + 1) h]
      show _ = (x + if f < fr then y + c f else y) :: _
      by_cases hf : f < fr
      · rw [if_pos hf, if_pos hf, add_assoc]
      · rw [if_neg hf, if_neg hf]

theorem zipWith_add_zerosB (x : List ℚ) :
    List.zipWith (· + ·) x (zerosB x.length) = x := by
  induction x with
  | nil => rfl
  | cons a xs ih =>
    show (a + 0) :: List.zipWith (· + ·) xs (zerosB xs.length) = a :: xs
    rw [add_zero, ih]

theorem renderVoices_accumulate (env : BlockEnv) (n : ℕ) :
    ∀ (vs : List VoiceM) (i : ℕ) (a b c d : List ℚ),
      a.length = b.length → c.length = d.length →
      renderVoices env n i vs (List.zipWith (· + ·) a b) (List.zipWith (· + ·) c d)
        = ⟨(renderVoices env n i vs b d).voices,
           List.zipWith (· + ·) a (renderVoices env n i vs b d).bufL,
           List.zipWith (· + ·) c (renderVoices env n i vs b d).bufR⟩ := by
  intro vs
  induction vs with
  | nil => intro i a b c d hab hcd; rfl
  | cons v rest ih =>
    intro i a b c d hab hcd
    unfold renderVoices
    split
    · rw [ih (i + 1) a b c d hab hcd]
    · dsimp only
      split
      · rw [ih (i + 1) a b c d hab hcd]
      · rw [addContrib_zipWith _ _ a b 0 hab, addContrib_zipWith _ _ c d 0 hcd]
        rw [ih (i + 1) a (addContrib (env.voiceContribL i) _ 0 b) c
          (addContrib (env.voiceContribR i) _ 0 d)
          (by rw [length_addContrib]; exact hab)
          (by rw [length_addContrib]; exact hcd)]

theorem length_executeBlock (cfg : OpConfig) (env : BlockEnv) (st0 : SynthState)
    (prevL prevR : List ℚ) :
    (executeBlock cfg env st0 prevL prevR).state.voices.length = st0.voices.length := by
  unfold executeBlock
  dsimp only
  split
  · rfl
  · split
    · split
      · simp only []
        rw [length_resetVoices]
        exact length_triggerStage cfg env st0
      · exact length_triggerStage cfg env st0
    · rw [length_playingStage]
      exact length_triggerStage cfg env st0

/-! ## Claim theorems -/

/-- Claim C2: for every active voice and every rendered sample, the envelope
gain value is in [0,1]: it is clamped to [0,1] before being multiplied into
the voice's mono sample, for every window shape (V3) and every attack/decay
curve factor (V1), whatever values the external float math routines return. -/
theorem envelope_gain_clamped_unit_interval :
    ∀ (fns : FloatFns) (attackPct clampedDecayPct aCurve dCurve : ℚ) (cur total : ℤ)
      (mono : ℚ) (shape : WindowShape) (xfadeIx : ℤ) (overlap smoothing phaseOff : ℚ),
      (0 ≤ clampQ (envelopeScaleV1 fns attackPct clampedDecayPct aCurve dCurve cur total) 0 1
        ∧ clampQ (envelopeScaleV1 fns attackPct clampedDecayPct aCurve dCurve cur total) 0 1 ≤ 1)
      ∧ renderedSampleV1 fns attackPct clampedDecayPct aCurve dCurve cur total mono
          = mono * clampQ (envelopeScaleV1 fns attackPct clampedDecayPct aCurve dCurve cur total) 0 1
      ∧ (0 ≤ envelopeClampedV3 fns shape xfadeIx attackPct clampedDecayPct overlap
            smoothing phaseOff cur total
        ∧ envelopeClampedV3 fns shape xfadeIx attackPct clampedDecayPct overlap
            smoothing phaseOff cur total ≤ 1)
      ∧ renderedSampleV3 fns shape xfadeIx attackPct clampedDecayPct overlap
            smoothing phaseOff cur total mono
          = mono * envelopeClampedV3 fns shape xfadeIx attackPct clampedDecayPct overlap
            smoothing phaseOff cur total := by
  intro fns attackPct clampedDecayPct aCurve dCurve cur total mono shape xfadeIx
    overlap smoothing phaseOff
  refine ⟨⟨clampQ_ge _ 0 1 (by norm_num), clampQ_le _ 0 1 (by norm_num)⟩, rfl, ⟨?_, ?_⟩, rfl⟩
  · unfold envelopeClampedV3
    exact clampQ_ge _ 0 1 (by norm_num)
  · unfold envelopeClampedV3
    exact clampQ_le _ 0 1 (by norm_num)

/-- Claim C6 amended: for every committed grain the resolved source read
START is in bounds, but full containment start + resolvedDuration ≤
cachedDuration + ε holds only for reversed V1 grains and V3 grains, not for
forward V1 grains. Reversed grains (V1, Execute lines 491-507): the
committed segment satisfies 0 ≤ start, start < segEnd and
segEnd ≤ cachedDuration, hence start + (segEnd - start) ≤ cachedDuration ≤
cachedDuration + ε, and it is resolved before the ceil/frame-ratio output
expansion of TriggerGrain. Forward grains (V1, lines 508-514): only the
start is clamped, into [0, cachedDuration - MinGrainDurationSeconds], so
merely start + MinGrainDurationSeconds ≤ cachedDuration + ε is guaranteed;
a committed forward grain whose resolved duration exceeds
MinGrainDurationSeconds can overrun the file end (see the counterexample).
V3 grains (TriggerGrain lines 1106-1116): a committed start satisfies
0 ≤ start and start + duration ≤ cachedDuration. -/
theorem grain_read_region_in_bounds :
    (∀ (cs outD ratio dur sr : ℚ),
      (resolveReverseRegion cs outD ratio dur sr).valid = true →
      0 ≤ (resolveReverseRegion cs outD ratio dur sr).start
      ∧ (resolveReverseRegion cs outD ratio dur sr).start
          < (resolveReverseRegion cs outD ratio dur sr).segEnd
      ∧ (resolveReverseRegion cs outD ratio dur sr).segEnd ≤ dur
      ∧ (resolveReverseRegion cs outD ratio dur sr).start
          + ((resolveReverseRegion cs outD ratio dur sr).segEnd
             - (resolveReverseRegion cs outD ratio dur sr).start) ≤ dur + EpsilonQ)
    ∧ (∀ (cs dur : ℚ), MinGrainDurationSecondsQ ≤ dur →
      0 ≤ resolveForwardStart cs dur
      ∧ resolveForwardStart cs dur ≤ dur - MinGrainDurationSecondsQ
      ∧ resolveForwardStart cs dur + MinGrainDurationSecondsQ ≤ dur + EpsilonQ)
    ∧ (∀ (s d cd s2 : ℚ), clampGrainStartV3 s d cd = some s2 →
      0 ≤ s2 ∧ s2 + d ≤ cd) := by
  refine ⟨?_, ?_, ?_⟩
  · intro cs outD ratio dur sr hv
    unfold resolveReverseRegion at hv ⊢
    dsimp only at hv ⊢
    by_cases h1 : outD * ratio < EpsilonQ
    · rw [if_pos h1] at hv
      simp at hv
    · rw [if_neg h1] at hv ⊢
      by_cases h2 : revSegEnd cs (outD * ratio) dur - EpsilonQ
          ≤ revSegStart cs (outD * ratio) dur
      · rw [if_pos h2] at hv
        simp at hv
      · rw [if_neg h2] at hv ⊢
        by_cases h3 : (⌈(revSegEnd cs (outD * ratio) dur
            - revSegStart cs (outD * ratio) dur) * sr⌉ : ℤ) ≤ 0
        · rw [if_pos h3] at hv
          simp at hv
        · rw [if_neg h3]
          dsimp only
          push_neg at h2
          have heps : (0:ℚ) < EpsilonQ := by norm_num [EpsilonQ]
          have hle := revSegEnd_le cs (outD * ratio) dur
          refine ⟨revSegStart_nonneg _ _ _, by linarith, hle, by linarith⟩
  · intro cs dur hdur
    unfold resolveForwardStart
    dsimp only
    have h1 : max 0 (min (if fmodQ cs dur < 0 then fmodQ cs dur + dur else fmodQ cs dur)
        (dur - MinGrainDurationSecondsQ)) ≤ dur - MinGrainDurationSecondsQ := by
      apply max_le
      · linarith
      · exact min_le_right _ _
    have heps : (0:ℚ) ≤ EpsilonQ := by norm_num [EpsilonQ]
    exact ⟨le_max_left 0 _, h1, by linarith⟩
  · intro s d cd s2 h
    unfold clampGrainStartV3 at h
    dsimp only at h
    split at h
    · next hover =>
      split at h
      · exact absurd h (by simp)
      · next hrej =>
        push_neg at hrej
        have h2 : max 0 (cd - d) = s2 := by
          injection h
        have h3 : 0 < s2 := h2 ▸ hrej.1
        have hpos : 0 < cd - d := by
          by_contra hc
          push_neg at hc
          rw [← h2, max_eq_left hc] at h3
          exact lt_irrefl 0 h3
        have h4 : s2 = cd - d := by
          rw [← h2, max_eq_right (le_of_lt hpos)]
        constructor
        · exact le_of_lt h3
        · linarith
    · next hover =>
      push_neg at hover
      have h2 : max 0 s = s2 := by injection h
      constructor
      · rw [← h2]; exact le_max_left 0 s
      · rw [← h2]; exact hover

/-- Claim C7 counterexample: in the reverse-capable operator
(FGranularSynthOperator::TriggerGrain, line 874: bIsLooping = not reversed),
a forward (non-reversed) grain's reader is opened LOOPING, contradicting the
claim that every forward grain's reader is non-looping. Shown at the
concrete external constants quantization = 128, minimum decode = 256 and
resolved start time 0. -/
theorem forward_reader_looping_counterexample :
    (readerSettingsV1 128 256 0 false).bIsLooping = true := rfl

/-- Claim C7 amended: every per-voice reader is a random-access reader
positioned at the resolved (clamped nonnegative) source start time with a
bounded maximum decode chunk size (at least the desired size, within one
quantization step above it, and a multiple of the quantization); the readers
of the forward-only operators (V2, V3) and of reversed V1 grains are
non-looping, while forward grains of the reverse-capable operator V1 open a
looping reader. -/
theorem reader_settings_characterization :
    ∀ (dq md bs gs : ℕ) (t ct : ℚ),
      ((readerSettingsV1 dq md t false).bIsLooping = true
        ∧ (readerSettingsV1 dq md t true).bIsLooping = false
        ∧ (readerSettingsV2 bs t).bIsLooping = false
        ∧ (readerSettingsV3 bs gs ct).bIsLooping = false)
      ∧ (∀ rev : Bool, (readerSettingsV1 dq md t rev).startTimeInSeconds = max 0 t)
      ∧ (readerSettingsV2 bs t).startTimeInSeconds = max 0 t
      ∧ (readerSettingsV3 bs gs ct).startTimeInSeconds = ct
      ∧ (0 < dq →
          max DeinterleaveBlockSizeFramesN md
              ≤ (readerSettingsV1 dq md t false).maxDecodeSizeInFrames
          ∧ (readerSettingsV1 dq md t false).maxDecodeSizeInFrames
              < max DeinterleaveBlockSizeFramesN md + dq
          ∧ dq ∣ (readerSettingsV1 dq md t false).maxDecodeSizeInFrames)
      ∧ (max (bs * 2) 128 ≤ (readerSettingsV2 bs t).maxDecodeSizeInFrames
          ∧ (readerSettingsV2 bs t).maxDecodeSizeInFrames < max (bs * 2) 128 + 128)
      ∧ (max gs (bs * 2) ≤ (readerSettingsV3 bs gs ct).maxDecodeSizeInFrames
          ∧ (readerSettingsV3 bs gs ct).maxDecodeSizeInFrames < max gs (bs * 2) + 128) := by
  intro dq md bs gs t ct
  refine ⟨⟨rfl, rfl, rfl, rfl⟩, ?_, rfl, rfl, ?_, ?_, ?_⟩
  · intro rev
    rfl
  · intro hdq
    exact ⟨le_roundUpToMultiple _ _ hdq, roundUpToMultiple_lt _ _ hdq,
      dvd_roundUpToMultiple _ _⟩
  · exact ⟨le_roundUpToMultiple _ _ (by norm_num), roundUpToMultiple_lt _ _ (by norm_num)⟩
  · exact ⟨le_roundUpToMultiple _ _ (by norm_num), roundUpToMultiple_lt _ _ (by norm_num)⟩

/-- Claim C9: a reversed grain activates its voice only when the up-front
segment read returned at least one frame; a zero-frame read leaves the voice
inactive with the reader released; on success the voice's total and
remaining counts are both min(requested, max(1, ceil(framesRead /
frameRatio))), so the realized duration never exceeds the requested one. -/
theorem reversed_grain_realized_duration :
    ∀ (req : ℤ) (fr : ℕ) (ratio : ℚ), 1 ≤ req →
      (fr = 0 →
        (reversedGrainSetup req fr ratio).activated = false
        ∧ (reversedGrainSetup req fr ratio).readerHeldAfter = false)
      ∧ (0 < fr →
        (reversedGrainSetup req fr ratio).activated = true
        ∧ (reversedGrainSetup req fr ratio).readerHeldAfter = false
        ∧ (reversedGrainSetup req fr ratio).totalSamples
            = min req (max 1 ⌈(fr : ℚ) / ratio⌉)
        ∧ (reversedGrainSetup req fr ratio).remainingSamples
            = (reversedGrainSetup req fr ratio).totalSamples
        ∧ (reversedGrainSetup req fr ratio).totalSamples ≤ req) := by
  intro req fr ratio hreq
  constructor
  · intro h0
    unfold reversedGrainSetup
    rw [if_pos h0]
    exact ⟨rfl, rfl⟩
  · intro hpos
    have h0 : ¬(fr = 0) := Nat.pos_iff_ne_zero.mp hpos
    unfold reversedGrainSetup
    rw [if_neg h0]
    dsimp only
    have hmax : (1 : ℤ) ≤ max 1 ⌈(fr : ℚ) / ratio⌉ := le_max_left _ _
    have hmin : (1 : ℤ) ≤ min req (max 1 ⌈(fr : ℚ) / ratio⌉) := le_min hreq hmax
    refine ⟨rfl, rfl, max_eq_right hmin, rfl, ?_⟩
    rw [max_eq_right hmin]
    exact min_le_left _ _

/-- Claim C8: the mixer applies equal-power panning with
angle = (pan + 1)/2 times pi/2, left gain cos(angle) times volumeScale and
right gain sin(angle) times volumeScale, accumulating (not overwriting) into
the stereo output; pan = 0 gives both gains equal to cos(pi/4) = sqrt(2)/2,
which is within 0.0001 of 0.7071, and the two gains are equal-power:
their squares sum to the squared volume scale. -/
theorem equal_power_pan_mixer :
    ∀ (pan vol gain : ℝ) (src dst : List ℝ) (i : ℕ),
      panAngle 0 = Real.pi / 4
      ∧ leftGainV3 0 vol = Real.sqrt 2 / 2 * vol
      ∧ rightGainV3 0 vol = Real.sqrt 2 / 2 * vol
      ∧ |Real.sqrt 2 / 2 - 7071 / 10000| < 1 / 10000
      ∧ leftGainV3 pan vol ^ 2 + rightGainV3 pan vol ^ 2 = vol ^ 2
      ∧ (i < src.length → i < dst.length →
          (arrayMixIn src dst gain).getD i 0 = dst.getD i 0 + src.getD i 0 * gain) := by
  intro pan vol gain src dst i
  have hangle : panAngle 0 = Real.pi / 4 := by
    unfold panAngle
    ring
  have hsqrt2 : Real.sqrt 2 ^ 2 = 2 := Real.sq_sqrt (by norm_num)
  have hsqrt2nn : 0 ≤ Real.sqrt 2 := Real.sqrt_nonneg 2
  refine ⟨hangle, ?_, ?_, ?_, ?_, ?_⟩
  · unfold leftGainV3
    rw [hangle, Real.cos_pi_div_four]
  · unfold rightGainV3
    rw [hangle, Real.sin_pi_div_four]
  · rw [abs_lt]
    constructor
    · nlinarith
    · nlinarith
  · unfold leftGainV3 rightGainV3
    have hpyth := Real.sin_sq_add_cos_sq (panAngle pan)
    nlinarith [hpyth]
  · intro hi hj
    induction src generalizing dst i with
    | nil => simp at hi
    | cons s ss ih =>
      match dst, i with
      | [], _ => simp at hj
      | d :: ds, 0 => rfl
      | d :: ds, n + 1 =>
        show (arrayMixIn ss ds gain).getD n 0 = ds.getD n 0 + ss.getD n 0 * gain
        exact ih ds n (by simpa using hi) (by simpa using hj)

/-- Claim C5: each block the scheduler compares the floating
samples-until-next-grain counter against the block's elapsed samples,
triggering one grain and reseeding the counter with the next (possibly
jittered) interval each time it is at most the elapsed samples (so several
grains can trigger in one block), exits once the counter exceeds the elapsed
samples, then subtracts the elapsed samples; with
interval = (grainDuration / activeVoices) * sampleRate, the inputs
grainDuration = 100 ms, activeVoices = 1, jitter = 0, sampleRate = 48000
give a 4800-sample interval, and over blocks of 512 frames consecutive
grains are 9 or 10 blocks apart. -/
theorem scheduler_counter_and_interval_scenario :
    (∀ (base jitPct : ℚ) (u : ℕ → ℚ) (k : ℕ) (c e : ℚ), c ≤ e →
      schedLoop base jitPct u k c e
        = schedLoop base jitPct u (k + 1) (c + jitteredIntervalV1 base jitPct (u k)) e)
    ∧ (∀ (base jitPct : ℚ) (u : ℕ → ℚ) (k : ℕ) (c e : ℚ), e < c →
      schedLoop base jitPct u k c e = (k, c))
    ∧ (∀ (base jitPct : ℚ) (u : ℕ → ℚ) (c e : ℚ), 0 < base → base < FloatMaxQ →
      schedStepV1 base jitPct u c e
        = ((schedLoop base jitPct u 0 c e).1, (schedLoop base jitPct u 0 c e).2 - e)
      ∧ e < (schedLoop base jitPct u 0 c e).2)
    ∧ baseSamplesPerGrainIntervalV1 100 1 48000 = 4800
    ∧ schedStepV1 100 0 (fun _ => 0) 0 512 = (6, 88)
    ∧ idxWhere (simGrainBlocksV1 4800 512 48 0) = [0, 9, 18, 28, 37, 46]
    ∧ gapsOf (idxWhere (simGrainBlocksV1 4800 512 48 0)) = [9, 9, 10, 9, 9] := by
  refine ⟨schedLoop_go, schedLoop_done, ?_, ?_, ?_, ?_, ?_⟩
  · intro base jitPct u c e h1 h2
    constructor
    · unfold schedStepV1
      rw [if_pos ⟨h1, h2⟩]
    · exact schedLoop_final_gt base jitPct u ((⌈e - c⌉ + 1).toNat) 0 c e (le_refl _)
  · norm_num [baseSamplesPerGrainIntervalV1, MinGrainDurationSecondsQ,
      MinActiveVoicesParamQ, FloatMaxQ]
  · norm_num [schedStepV1, schedLoop_go, schedLoop_done, jitteredIntervalV1, FloatMaxQ,
      MinSamplesPerGrainIntervalQ]
  · norm_num [simGrainBlocksV1, schedStepV1, schedLoop_go, schedLoop_done,
      jitteredIntervalV1, FloatMaxQ, MinSamplesPerGrainIntervalQ, idxWhere, idxWhereAux]
  · norm_num [simGrainBlocksV1, schedStepV1, schedLoop_go, schedLoop_done,
      jitteredIntervalV1, FloatMaxQ, MinSamplesPerGrainIntervalQ, idxWhere, idxWhereAux,
      gapsOf]

/-- Claim C1: the number of active grain voices never exceeds
MaxGrainVoices = 32: the pool is a fixed-size array (its length is preserved
by a whole Execute call, so the active count is bounded by 32 whenever the
pool was constructed with 32 slots), allocation scans linearly for the first
inactive slot and never touches an active voice (no preemption), and when
every slot is active the grain request fails and the pool is unchanged. -/
theorem voice_pool_bounded_no_preemption :
    (∀ vs : List VoiceM, activeCount vs ≤ vs.length)
    ∧ (∀ (env : BlockEnv) (ws : WaveState) (rg : ResolvedGrain) (vs : List VoiceM),
        (∀ v ∈ vs, v.bIsActive = true) → triggerGrainV1 env ws rg vs = (false, vs))
    ∧ (∀ (env : BlockEnv) (ws : WaveState) (rg : ResolvedGrain) (vs : List VoiceM) (j : ℕ),
        (vs.getD j defaultVoice).bIsActive = true →
        ((triggerGrainV1 env ws rg vs).2).getD j defaultVoice = vs.getD j defaultVoice)
    ∧ (∀ (env : BlockEnv) (ws : WaveState) (rg : ResolvedGrain) (vs : List VoiceM),
        (triggerGrainV1 env ws rg vs).2.length = vs.length)
    ∧ (∀ (cfg : OpConfig) (env : BlockEnv) (st : SynthState) (pl pr : List ℚ),
        st.voices.length = MaxGrainVoicesN →
        (executeBlock cfg env st pl pr).state.voices.length = MaxGrainVoicesN
        ∧ activeCount (executeBlock cfg env st pl pr).state.voices ≤ MaxGrainVoicesN) := by
  refine ⟨activeCount_le_length, triggerGrainV1_full, triggerGrainV1_no_preempt,
    length_triggerGrainV1, ?_⟩
  intro cfg env st pl pr hlen
  have h := length_executeBlock cfg env st pl pr
  rw [hlen] at h
  exact ⟨h, h ▸ activeCount_le_length _⟩

/-! ### Trigger-stage case lemmas used by the Stop and Play-failure claims. -/

theorem triggerStage_stop_no_plays (cfg : OpConfig) (env : BlockEnv) (st : SynthState)
    (sf : ℤ) (rest : List ℤ) (hplay : st.bIsPlaying = true)
    (hplays : env.playFrames = []) (hstops : env.stopFrames = sf :: rest) :
    triggerStage cfg env st
      = ⟨{ st with bIsPlaying := false, voices := resetVoices st.voices },
         ⟨[], [sf], []⟩, true, some sf, 0⟩ := by
  unfold triggerStage
  rw [hplays, hstops, hplay]
  dsimp only
  show stopCommit ⟨st, noEvents, (some sf).isSome, some sf, 0⟩ = _
  unfold stopCommit
  dsimp only
  rw [if_pos ⟨rfl, hplay⟩]
  rfl

theorem initWaveData_fail (env : BlockEnv) (p : ℕ) (h : ¬ initWaveDataOkP env) :
    initWaveData env p = ⟨false, clearedWave⟩ := by
  unfold initWaveData
  split
  · rfl
  · split
    · rfl
    · split
      · rfl
      · exfalso
        apply h
        next h1 h2 h3 =>
        push_neg at h2
        exact ⟨by simpa using h1, by omega, by linarith [h2.2], by simpa using h3⟩

/-- A Play trigger whose validation fails: TryStartPlayback reports failure,
forces the not-playing state, resets every voice and clears the session
wave state; it does not emit any event itself (the caller emits OnFinished). -/
theorem tryStartPlaybackV1_fail (cfg : OpConfig) (env : BlockEnv) (frame : ℤ)
    (st : SynthState) (ev : Events) (gIx : ℕ)
    (hfail : env.assetValid = false ∨ env.inputProxy = none ∨ ¬ initWaveDataOkP env) :
    tryStartPlaybackV1 cfg env frame st ev gIx
      = ⟨false,
         { st with
           bIsPlaying := false
           voices := resetVoices st.voices
           wave := clearedWave },
         ev, gIx⟩ := by
  unfold tryStartPlaybackV1
  dsimp only
  by_cases h1 : env.assetValid = false
  · rw [if_pos h1]
  · rw [if_neg h1]
    cases hip : env.inputProxy with
    | none => rfl
    | some p =>
      have hbad : ¬ initWaveDataOkP env := by
        rcases hfail with h | h | h
        · exact absurd h h1
        · rw [hip] at h; exact absurd h (by simp)
        · exact h
      dsimp only
      rw [initWaveData_fail env p hbad]
      rfl

/-- Claim C3 amended: if a Stop trigger fires while Playing and no Play
trigger fires in the same block, then within that same block every voice is
deactivated (the whole pool is reset to default, so the active-voice count is
0 and the in-flight voices are discarded without draining their remaining
samples), OnFinished is emitted exactly once, at the stop frame, and the
block's stereo output is all-zero. -/
theorem stop_discards_voices_zero_output (cfg : OpConfig) (env : BlockEnv)
    (st : SynthState) (prevL prevR : List ℚ) (sf : ℤ) (rest : List ℤ)
    (hbs : 0 < cfg.blockSize) (hplay : st.bIsPlaying = true)
    (hplays : env.playFrames = []) (hstops : env.stopFrames = sf :: rest) :
    (executeBlock cfg env st prevL prevR).state.bIsPlaying = false
    ∧ (executeBlock cfg env st prevL prevR).state.voices
        = List.replicate st.voices.length defaultVoice
    ∧ activeCount (executeBlock cfg env st prevL prevR).state.voices = 0
    ∧ (executeBlock cfg env st prevL prevR).events.onFinished = [sf]
    ∧ (executeBlock cfg env st prevL prevR).events.onPlay = []
    ∧ (executeBlock cfg env st prevL prevR).outL = zerosB cfg.blockSize.toNat
    ∧ (executeBlock cfg env st prevL prevR).outR = zerosB cfg.blockSize.toNat := by
  have ht := triggerStage_stop_no_plays cfg env st sf rest hplay hplays hstops
  unfold executeBlock
  rw [if_neg (by omega : ¬ cfg.blockSize ≤ 0)]
  dsimp only
  rw [ht]
  dsimp only
  rw [if_pos rfl]
  dsimp only
  have hvoices : ∀ c : Prop, ∀ hinst : Decidable c,
      (if c then resetVoices (resetVoices st.voices) else resetVoices st.voices)
        = List.replicate st.voices.length defaultVoice := by
    intro c hinst
    split
    · rw [resetVoices_eq_replicate, length_resetVoices]
    · rw [resetVoices_eq_replicate]
  rw [hvoices]
  refine ⟨rfl, rfl, ?_, rfl, rfl, rfl, rfl⟩
  exact activeCount_replicate_default _

theorem triggerStage_play_fail (cfg : OpConfig) (env : BlockEnv) (st : SynthState)
    (pf : ℤ) (hplays : env.playFrames = [pf]) (hstops : env.stopFrames = [])
    (hfail : env.assetValid = false ∨ env.inputProxy = none ∨ ¬ initWaveDataOkP env) :
    triggerStage cfg env st
      = ⟨{ st with
           bIsPlaying := false
           voices := resetVoices st.voices
           wave := clearedWave },
         ⟨[], [pf], []⟩, false, none, 0⟩ := by
  unfold triggerStage
  rw [hplays, hstops]
  dsimp only
  simp only [List.head?_nil, ite_self]
  show stopCommit (processPlays cfg env [pf] ⟨st, noEvents, (none : Option ℤ).isSome, none, 0⟩)
    = _
  unfold processPlays
  rw [tryStartPlaybackV1_fail cfg env pf st noEvents 0 hfail]
  dsimp only
  unfold processPlays
  unfold stopCommit
  rfl

/-- Claim C4 amended: whenever a Play trigger fires and the bound asset
fails validation (invalid asset, invalid proxy, or failed wave-data
initialization), the engine remains/becomes Stopped, the block's audio
output is silence, no voice is active afterwards, the session wave state is
cleared, and OnFinished is emitted at the play frame in the same block
regardless of whether a session was previously active. -/
theorem play_validation_failure_silent_stop (cfg : OpConfig) (env : BlockEnv)
    (st : SynthState) (prevL prevR : List ℚ) (pf : ℤ)
    (hbs : 0 < cfg.blockSize) (hplays : env.playFrames = [pf])
    (hstops : env.stopFrames = [])
    (hfail : env.assetValid = false ∨ env.inputProxy = none ∨ ¬ initWaveDataOkP env) :
    (executeBlock cfg env st prevL prevR).state.bIsPlaying = false
    ∧ (executeBlock cfg env st prevL prevR).state.voices
        = List.replicate st.voices.length defaultVoice
    ∧ activeCount (executeBlock cfg env st prevL prevR).state.voices = 0
    ∧ (executeBlock cfg env st prevL prevR).state.wave = clearedWave
    ∧ (executeBlock cfg env st prevL prevR).events.onFinished = [pf]
    ∧ (executeBlock cfg env st prevL prevR).events.onPlay = []
    ∧ (executeBlock cfg env st prevL prevR).outL = zerosB cfg.blockSize.toNat
    ∧ (executeBlock cfg env st prevL prevR).outR = zerosB cfg.blockSize.toNat := by
  have ht := triggerStage_play_fail cfg env st pf hplays hstops hfail
  unfold executeBlock
  rw [if_neg (by omega : ¬ cfg.blockSize ≤ 0)]
  dsimp only
  rw [ht]
  dsimp only
  rw [if_pos rfl]
  dsimp only
  rw [if_neg (by simp [clearedWave])]
  refine ⟨rfl, ?_, ?_, rfl, rfl, rfl, rfl, rfl⟩
  · exact resetVoices_eq_replicate st.voices
  · rw [resetVoices_eq_replicate st.voices]
    exact activeCount_replicate_default _

/-! ### Lemmas for the mixing-base claim (C10). -/

theorem renderVoices_into_base (env : BlockEnv) (n : ℕ) (vs : List VoiceM)
    (bL bR : List ℚ) (hL : bL.length = n) (hR : bR.length = n) :
    renderVoices env n 0 vs bL bR
      = ⟨(renderVoices env n 0 vs (zerosB n) (zerosB n)).voices,
         List.zipWith (· + ·) bL (renderVoices env n 0 vs (zerosB n) (zerosB n)).bufL,
         List.zipWith (· + ·) bR (renderVoices env n 0 vs (zerosB n) (zerosB n)).bufR⟩ := by
  have h1 : List.zipWith (· + ·) bL (zerosB n) = bL := by
    rw [← hL]
    exact zipWith_add_zerosB bL
  have h2 : List.zipWith (· + ·) bR (zerosB n) = bR := by
    rw [← hR]
    exact zipWith_add_zerosB bR
  have hlen1 : bL.length = (zerosB n).length := by
    rw [hL]
    simp [zerosB]
  have hlen2 : bR.length = (zerosB n).length := by
    rw [hR]
    simp [zerosB]
  calc renderVoices env n 0 vs bL bR
      = renderVoices env n 0 vs (List.zipWith (· + ·) bL (zerosB n))
          (List.zipWith (· + ·) bR (zerosB n)) := by rw [h1, h2]
  _ = _ := renderVoices_accumulate env n vs 0 bL (zerosB n) bR (zerosB n) hlen1 hlen2

theorem stopFailResult_waveJustChanged (n : ℕ) (st : SynthState) (ev : Events) :
    (stopFailResult n st ev).waveJustChanged = none := rfl

theorem mixStage_sanity_fail (cfg : OpConfig) (env : BlockEnv) (ev0 : Events) (gIx : ℕ)
    (st2 : SynthState) (wc : Bool) (prevL prevR : List ℚ)
    (hsane : st2.wave.numChannels ≤ 0 ∨ st2.wave.hasDeinterleave = false ∨
      st2.wave.cachedDuration < MinGrainDurationSecondsQ) :
    mixStage cfg env ev0 gIx st2 wc prevL prevR
      = stopFailResult cfg.blockSize.toNat st2 ev0 := by
  unfold mixStage
  rw [if_pos hsane]

theorem mixStage_spec (cfg : OpConfig) (env : BlockEnv) (ev0 : Events) (gIx : ℕ)
    (st2 : SynthState) (wc : Bool) (prevL prevR : List ℚ)
    (hL : prevL.length = cfg.blockSize.toNat) (hR : prevR.length = cfg.blockSize.toNat)
    (hsane : ¬(st2.wave.numChannels ≤ 0 ∨ st2.wave.hasDeinterleave = false ∨
      st2.wave.cachedDuration < MinGrainDurationSecondsQ)) :
    (mixStage cfg env ev0 gIx st2 wc prevL prevR).waveJustChanged = some wc
    ∧ (mixStage cfg env ev0 gIx st2 wc prevL prevR).mixBaseL
        = (if wc = true then prevL else zerosB cfg.blockSize.toNat)
    ∧ (mixStage cfg env ev0 gIx st2 wc prevL prevR).mixBaseR
        = (if wc = true then prevR else zerosB cfg.blockSize.toNat)
    ∧ (mixStage cfg env ev0 gIx st2 wc prevL prevR).outL
        = List.zipWith (· + ·) (mixStage cfg env ev0 gIx st2 wc prevL prevR).mixBaseL
            (renderVoices env cfg.blockSize.toNat 0
              (mixStage cfg env ev0 gIx st2 wc prevL prevR).mixVoices
              (zerosB cfg.blockSize.toNat) (zerosB cfg.blockSize.toNat)).bufL
    ∧ (mixStage cfg env ev0 gIx st2 wc prevL prevR).outR
        = List.zipWith (· + ·) (mixStage cfg env ev0 gIx st2 wc prevL prevR).mixBaseR
            (renderVoices env cfg.blockSize.toNat 0
              (mixStage cfg env ev0 gIx st2 wc prevL prevR).mixVoices
              (zerosB cfg.blockSize.toNat) (zerosB cfg.blockSize.toNat)).bufR := by
  have hmbL : (if wc = true then prevL else zerosB cfg.blockSize.toNat).length
      = cfg.blockSize.toNat := by
    cases wc
    · simp [zerosB]
    · simpa using hL
  have hmbR : (if wc = true then prevR else zerosB cfg.blockSize.toNat).length
      = cfg.blockSize.toNat := by
    cases wc
    · simp [zerosB]
    · simpa using hR
  unfold mixStage
  rw [if_neg hsane]
  dsimp only
  rw [renderVoices_into_base env cfg.blockSize.toNat _ _ _ hmbL hmbR]
  exact ⟨rfl, rfl, rfl, rfl, rfl⟩

/-- Claim C10: during playback the stereo output buffers are zeroed at the
start of mixing in every block except one in which the bound wave asset
reference changed and was successfully re-initialized; in such a wave-change
block the buffers keep their previous contents, and in either case the
active voices are accumulated on top of the mixing base (the block output
equals the base plus the voices' contributions rendered into silence). -/
theorem mix_zeroing_except_wave_change (cfg : OpConfig) (env : BlockEnv)
    (st : SynthState) (prevL prevR : List ℚ) (b : Bool)
    (hL : prevL.length = cfg.blockSize.toNat) (hR : prevR.length = cfg.blockSize.toNat)
    (hw : (executeBlock cfg env st prevL prevR).waveJustChanged = some b) :
    (executeBlock cfg env st prevL prevR).mixBaseL
        = (if b = true then prevL else zerosB cfg.blockSize.toNat)
    ∧ (executeBlock cfg env st prevL prevR).mixBaseR
        = (if b = true then prevR else zerosB cfg.blockSize.toNat)
    ∧ (b = true → env.inputProxy.isSome = true ∧ initWaveDataOkP env)
    ∧ (executeBlock cfg env st prevL prevR).outL
        = List.zipWith (· + ·) (executeBlock cfg env st prevL prevR).mixBaseL
            (renderVoices env cfg.blockSize.toNat 0
              (executeBlock cfg env st prevL prevR).mixVoices
              (zerosB cfg.blockSize.toNat) (zerosB cfg.blockSize.toNat)).bufL
    ∧ (executeBlock cfg env st prevL prevR).outR
        = List.zipWith (· + ·) (executeBlock cfg env st prevL prevR).mixBaseR
            (renderVoices env cfg.blockSize.toNat 0
              (executeBlock cfg env st prevL prevR).mixVoices
              (zerosB cfg.blockSize.toNat) (zerosB cfg.blockSize.toNat)).bufR := by
  unfold executeBlock at hw ⊢
  by_cases hbs : cfg.blockSize ≤ 0
  · rw [if_pos hbs] at hw
    simp at hw
  · rw [if_neg hbs] at hw ⊢
    dsimp only at hw ⊢
    by_cases hstopped : (triggerStage cfg env st).st.bIsPlaying = false
    · rw [if_pos hstopped] at hw
      simp at hw
    · rw [if_neg hstopped] at hw ⊢
      unfold playingStage at hw ⊢
      dsimp only at hw ⊢
      cases hip : env.inputProxy with
      | none =>
        rw [hip] at hw
        dsimp only at hw ⊢
        by_cases hcur : (triggerStage cfg env st).st.wave.currentProxy.isSome = true
        · rw [if_pos hcur] at hw
          rw [stopFailResult_waveJustChanged] at hw
          exact absurd hw (by simp)
        · rw [if_neg hcur] at hw ⊢
          by_cases hsane : (triggerStage cfg env st).st.wave.numChannels ≤ 0 ∨
              (triggerStage cfg env st).st.wave.hasDeinterleave = false ∨
              (triggerStage cfg env st).st.wave.cachedDuration < MinGrainDurationSecondsQ
          · rw [mixStage_sanity_fail cfg env _ _ _ false prevL prevR hsane,
              stopFailResult_waveJustChanged] at hw
            exact absurd hw (by simp)
          · have hs := mixStage_spec cfg env (triggerStage cfg env st).ev
              (triggerStage cfg env st).grainIx (triggerStage cfg env st).st false
              prevL prevR hL hR hsane
            have hb : b = false := by
              rw [hs.1] at hw
              exact (Option.some_injective _ hw).symm
            subst hb
            exact ⟨hs.2.1, hs.2.2.1, by simp, hs.2.2.2.1, hs.2.2.2.2⟩
      | some p =>
        rw [hip] at hw
        dsimp only at hw ⊢
        by_cases hne : (triggerStage cfg env st).st.wave.currentProxy ≠ some p
        · rw [if_pos hne] at hw ⊢
          by_cases hok : (initWaveData env p).ok = false
          · rw [if_pos hok] at hw
            rw [stopFailResult_waveJustChanged] at hw
            exact absurd hw (by simp)
          · rw [if_neg hok] at hw ⊢
            by_cases hsane :
                ({ (triggerStage cfg env st).st with
                    wave := (initWaveData env p).ws } : SynthState).wave.numChannels ≤ 0 ∨
                ({ (triggerStage cfg env st).st with
                    wave := (initWaveData env p).ws } : SynthState).wave.hasDeinterleave = false ∨
                ({ (triggerStage cfg env st).st with
                    wave := (initWaveData env p).ws } : SynthState).wave.cachedDuration
                  < MinGrainDurationSecondsQ
            · rw [mixStage_sanity_fail cfg env _ _ _ true prevL prevR hsane,
                stopFailResult_waveJustChanged] at hw
              exact absurd hw (by simp)
            · have hs := mixStage_spec cfg env (triggerStage cfg env st).ev
                (triggerStage cfg env st).grainIx
                { (triggerStage cfg env st).st with wave := (initWaveData env p).ws } true
                prevL prevR hL hR hsane
              have hb : b = true := by
                rw [hs.1] at hw
                exact (Option.some_injective _ hw).symm
              subst hb
              refine ⟨hs.2.1, hs.2.2.1, ?_, hs.2.2.2.1, hs.2.2.2.2⟩
              intro _
              have hokT : (initWaveData env p).ok = true := by
                cases hx : (initWaveData env p).ok
                · exact absurd hx hok
                · rfl
              exact ⟨by simp, (initWaveData_ok_iff env p).mp hokT⟩
        · rw [if_neg hne] at hw ⊢
          by_cases hsane : (triggerStage cfg env st).st.wave.numChannels ≤ 0 ∨
              (triggerStage cfg env st).st.wave.hasDeinterleave = false ∨
              (triggerStage cfg env st).st.wave.cachedDuration < MinGrainDurationSecondsQ
          · rw [mixStage_sanity_fail cfg env _ _ _ false prevL prevR hsane,
              stopFailResult_waveJustChanged] at hw
            exact absurd hw (by simp)
          · have hs := mixStage_spec cfg env (triggerStage cfg env st).ev
              (triggerStage cfg env st).grainIx (triggerStage cfg env st).st false
              prevL prevR hL hR hsane
            have hb : b = false := by
              rw [hs.1] at hw
              exact (Option.some_injective _ hw).symm
            subst hb
            exact ⟨hs.2.1, hs.2.2.1, by simp, hs.2.2.2.1, hs.2.2.2.2⟩

/-! ### Concrete inputs for the closed counterexample and witness runs. -/

def paramsBase : ParamsV1 where
  grainDurationMs := 100
  durationRandMs := 0
  activeVoicesP := 1
  timeJitterPct := 0
  startPointSeconds := 0
  startPointRandMs := 0
  reverseChance := 0
  attackTimePercent := 1 / 10
  decayTimePercent := 1 / 10
  attackCurve := 1
  decayCurve := 1
  pitchShift := 0
  pitchRand := 0
  pan := 0
  panRand := 0
  volumeRand := 0
  warmStart := false

def fnsBase : FloatFns where
  powQ := fun _ _ => 1
  cosQ := fun _ => 1
  sinQ := fun _ => 0
  expQ := fun _ => 1
  piQ := 3

def cfgBase : OpConfig where
  sampleRate := 48000
  blockSize := 4

def envBase : BlockEnv where
  params := paramsBase
  stopFrames := []
  playFrames := []
  inputProxy := none
  assetValid := false
  initReaderOk := true
  initNumChannels := 2
  initDurationSeconds := 1
  initDeinterleaveOk := true
  readerCreateOk := fun _ => true
  reverseFramesRead := fun _ => 0
  fns := fnsBase
  uStart := fun _ => 0
  uDur := fun _ => 0
  uPitch := fun _ => 0
  uRev := fun _ => 0
  uPan := fun _ => 0
  uVol := fun _ => 0
  uJitter := fun _ => 0
  voiceContribL := fun _ _ => 0
  voiceContribR := fun _ _ => 0

def stIdle : SynthState where
  bIsPlaying := false
  samplesUntilNextGrain := 0
  voices := List.replicate MaxGrainVoicesN defaultVoice
  wave := clearedWave

def stPlayingBase : SynthState where
  bIsPlaying := true
  samplesUntilNextGrain := 1000
  voices := List.replicate MaxGrainVoicesN defaultVoice
  wave := ⟨some 7, 1, 2, true⟩

def envStopOnly : BlockEnv := { envBase with stopFrames := [5] }

def envStopPlayFail : BlockEnv := { envBase with stopFrames := [5], playFrames := [10] }

def envPlayFail3 : BlockEnv := { envBase with playFrames := [3] }

def envMixSame : BlockEnv := { envBase with inputProxy := some 7, assetValid := true }

def envOverrun : BlockEnv :=
  { envBase with params := { paramsBase with startPointSeconds := 199/200 } }

def wsOverrun : WaveState := ⟨some 7, 1, 2, true⟩

/-- Claim C3 counterexample: a Stop fires at frame 5 while Playing and the
only Play trigger of the block, at frame 10, fails validation — so no Play
trigger succeeds later in the block, satisfying the claim's proviso — yet
OnFinished is emitted at the failed play frame 10 and NOT at the stop frame
5: every Play trigger, successful or not, clears the pending-Stop flag
(bTriggeredStopThisBlock = false in both branches of Execute lines
383-392), and the failing branch emits OnFinished at the play frame. -/
theorem stop_frame_event_counterexample :
    stPlayingBase.bIsPlaying = true
    ∧ envStopPlayFail.stopFrames = [5]
    ∧ envStopPlayFail.playFrames = [10]
    ∧ (tryStartPlaybackV1 cfgBase envStopPlayFail 10 stPlayingBase noEvents 0).ok = false
    ∧ (executeBlock cfgBase envStopPlayFail stPlayingBase (zerosB 4) (zerosB 4)).events.onFinished
        = [10]
    ∧ ¬ ((5 : ℤ) ∈
        (executeBlock cfgBase envStopPlayFail stPlayingBase (zerosB 4) (zerosB 4)).events.onFinished) := by
  refine ⟨rfl, rfl, rfl, rfl, rfl, ?_⟩
  decide

/-- Witness for the amended Stop claim (C3): a Stop at frame 5 in a block
with no Play triggers resets the pool, emits OnFinished at frame 5 and
outputs silence. -/
theorem stop_discards_voices_zero_output_witness :
    (0 : ℤ) < cfgBase.blockSize
    ∧ stPlayingBase.bIsPlaying = true
    ∧ envStopOnly.playFrames = []
    ∧ envStopOnly.stopFrames = 5 :: []
    ∧ activeCount (executeBlock cfgBase envStopOnly stPlayingBase (zerosB 4) (zerosB 4)).state.voices
        = 0
    ∧ (executeBlock cfgBase envStopOnly stPlayingBase (zerosB 4) (zerosB 4)).events.onFinished
        = [5]
    ∧ (executeBlock cfgBase envStopOnly stPlayingBase (zerosB 4) (zerosB 4)).outL
        = zerosB cfgBase.blockSize.toNat := by
  have h := stop_discards_voices_zero_output cfgBase envStopOnly stPlayingBase
    (zerosB 4) (zerosB 4) 5 [] (by decide) rfl rfl rfl
  exact ⟨by decide, rfl, rfl, rfl, h.2.2.1, h.2.2.2.1, h.2.2.2.2.2.1⟩

/-- Claim C4 counterexample: the engine is Stopped with no session ever
active (cleared wave state), a Play trigger at frame 3 fails validation, and
OnFinished is still emitted at frame 3 — the emission at Execute line 385 is
unconditional, not contingent on a previously active session. -/
theorem play_fail_no_session_counterexample :
    stIdle.bIsPlaying = false
    ∧ stIdle.wave = clearedWave
    ∧ envPlayFail3.assetValid = false
    ∧ envPlayFail3.playFrames = [3]
    ∧ (executeBlock cfgBase envPlayFail3 stIdle (zerosB 4) (zerosB 4)).events.onFinished
        = [3] :=
  ⟨rfl, rfl, rfl, rfl, rfl⟩

/-- Witness for the amended Play-failure claim (C4): a failing Play at
frame 3 leaves the engine Stopped, silent, with cleared wave state and
OnFinished at frame 3. -/
theorem play_validation_failure_witness :
    (0 : ℤ) < cfgBase.blockSize
    ∧ envPlayFail3.playFrames = [3]
    ∧ envPlayFail3.stopFrames = []
    ∧ envPlayFail3.assetValid = false
    ∧ (executeBlock cfgBase envPlayFail3 stIdle (zerosB 4) (zerosB 4)).state.bIsPlaying = false
    ∧ (executeBlock cfgBase envPlayFail3 stIdle (zerosB 4) (zerosB 4)).events.onFinished = [3]
    ∧ (executeBlock cfgBase envPlayFail3 stIdle (zerosB 4) (zerosB 4)).state.wave = clearedWave
    ∧ (executeBlock cfgBase envPlayFail3 stIdle (zerosB 4) (zerosB 4)).outL
        = zerosB cfgBase.blockSize.toNat := by
  have h := play_validation_failure_silent_stop cfgBase envPlayFail3 stIdle
    (zerosB 4) (zerosB 4) 3 (by decide) rfl rfl (Or.inl rfl)
  exact ⟨by decide, rfl, rfl, rfl, h.1, h.2.2.2.2.1, h.2.2.2.1, h.2.2.2.2.2.2.1⟩

/-- Witness for the voice-pool claim (C1) at a concrete 32-slot idle state
run through one block. -/
theorem voice_pool_witness :
    stIdle.voices.length = MaxGrainVoicesN
    ∧ (executeBlock cfgBase envBase stIdle (zerosB 4) (zerosB 4)).state.voices.length
        = MaxGrainVoicesN
    ∧ activeCount (executeBlock cfgBase envBase stIdle (zerosB 4) (zerosB 4)).state.voices
        ≤ MaxGrainVoicesN := by
  have h := voice_pool_bounded_no_preemption.2.2.2.2 cfgBase envBase stIdle
    (zerosB 4) (zerosB 4) (by simp [stIdle, MaxGrainVoicesN])
  exact ⟨by simp [stIdle, MaxGrainVoicesN], h.1, h.2⟩

/-- Witness for the scheduler claim (C5): the loop-step and loop-exit
equations and the step characterization applied at concrete counters. -/
theorem scheduler_witness :
    ((0 : ℚ) ≤ 512
      ∧ schedLoop 4800 0 (fun _ => 0) 0 0 512
          = schedLoop 4800 0 (fun _ => 0) 1 (0 + jitteredIntervalV1 4800 0 0) 512)
    ∧ ((512 : ℚ) < 4800 ∧ schedLoop 4800 0 (fun _ => 0) 1 4800 512 = (1, 4800))
    ∧ ((0 : ℚ) < 100 ∧ (100 : ℚ) < FloatMaxQ
      ∧ (512 : ℚ) < (schedLoop 100 0 (fun _ => 0) 0 0 512).2) := by
  refine ⟨⟨by norm_num,
      scheduler_counter_and_interval_scenario.1 4800 0 (fun _ => 0) 0 0 512 (by norm_num)⟩,
    ⟨by norm_num,
      scheduler_counter_and_interval_scenario.2.1 4800 0 (fun _ => 0) 1 4800 512 (by norm_num)⟩,
    by norm_num, by norm_num [FloatMaxQ],
    (scheduler_counter_and_interval_scenario.2.2.1 100 0 (fun _ => 0) 0 512 (by norm_num)
      (by norm_num [FloatMaxQ])).2⟩

/-- Witness for the read-region claim (C6) at concrete region inputs: a
valid reversed region, a forward start, and a committed V3 start. -/
theorem grain_read_region_witness :
    (resolveReverseRegion 0 (1/10) 1 1 48000).valid = true
    ∧ 0 ≤ (resolveReverseRegion 0 (1/10) 1 1 48000).start
    ∧ (resolveReverseRegion 0 (1/10) 1 1 48000).segEnd ≤ 1
    ∧ MinGrainDurationSecondsQ ≤ (1 : ℚ)
    ∧ 0 ≤ resolveForwardStart 0 1
    ∧ resolveForwardStart 0 1 ≤ 1 - MinGrainDurationSecondsQ
    ∧ clampGrainStartV3 0 (1/2) 1 = some 0
    ∧ (0 : ℚ) ≤ 0 ∧ (0 : ℚ) + 1/2 ≤ 1 := by
  have hv : (resolveReverseRegion 0 (1/10) 1 1 48000).valid = true := by
    norm_num [resolveReverseRegion, revSegStart, revSegEnd, revConceptEnd, fmodQ, truncQ,
      EpsilonQ]
  have hc : clampGrainStartV3 0 (1/2) 1 = some 0 := by
    norm_num [clampGrainStartV3]
  have hd : MinGrainDurationSecondsQ ≤ (1 : ℚ) := by norm_num [MinGrainDurationSecondsQ]
  have ha := grain_read_region_in_bounds.1 0 (1/10) 1 1 48000 hv
  have hb := grain_read_region_in_bounds.2.1 0 1 hd
  have hc2 := grain_read_region_in_bounds.2.2 0 (1/2) 1 0 hc
  exact ⟨hv, ha.1, ha.2.2.1, hd, hb.1, hb.2.1, hc, hc2.1, hc2.2⟩

/-- Witness for the reader-settings claim (C7) at a concrete quantization of
128 frames and a desired decode size of 64 frames. -/
theorem reader_settings_witness :
    (0 : ℕ) < 128
    ∧ (readerSettingsV1 128 64 (1/2) true).bIsLooping = false
    ∧ (readerSettingsV1 128 64 (1/2) false).bIsLooping = true
    ∧ max DeinterleaveBlockSizeFramesN 64
        ≤ (readerSettingsV1 128 64 (1/2) false).maxDecodeSizeInFrames
    ∧ 128 ∣ (readerSettingsV1 128 64 (1/2) false).maxDecodeSizeInFrames := by
  have h := reader_settings_characterization 128 64 512 1024 (1/2) (1/4)
  have h5 := h.2.2.2.2.1 (by norm_num)
  exact ⟨by norm_num, h.1.2.1, h.1.1, h5.1, h5.2.2⟩

/-- Witness for the equal-power mixer claim (C8) at pan 0, unit volume and a
one-sample accumulate with gain 3. -/
theorem equal_power_pan_witness :
    panAngle 0 = Real.pi / 4
    ∧ leftGainV3 0 1 ^ 2 + rightGainV3 0 1 ^ 2 = (1 : ℝ) ^ 2
    ∧ (0 : ℕ) < ([(1 : ℝ)]).length
    ∧ (0 : ℕ) < ([(2 : ℝ)]).length
    ∧ (arrayMixIn [(1 : ℝ)] [(2 : ℝ)] 3).getD 0 0
        = ([(2 : ℝ)]).getD 0 0 + ([(1 : ℝ)]).getD 0 0 * 3 := by
  have h := equal_power_pan_mixer 0 1 3 [(1 : ℝ)] [(2 : ℝ)] 0
  exact ⟨h.1, h.2.2.2.2.1, by norm_num, by norm_num,
    h.2.2.2.2.2 (by norm_num) (by norm_num)⟩

/-- Witness for the reversed-grain duration claim (C9): 100 output samples
requested, 10 frames read at frame ratio 1 realizes 10 samples; a zero-frame
read does not activate the voice. -/
theorem reversed_grain_witness :
    (1 : ℤ) ≤ 100 ∧ (0 : ℕ) < 10
    ∧ (reversedGrainSetup 100 10 1).activated = true
    ∧ (reversedGrainSetup 100 10 1).readerHeldAfter = false
    ∧ (reversedGrainSetup 100 10 1).totalSamples = 10
    ∧ (reversedGrainSetup 100 10 1).totalSamples ≤ 100
    ∧ (reversedGrainSetup 100 0 1).activated = false := by
  have h := (reversed_grain_realized_duration 100 10 1 (by norm_num)).2 (by norm_num)
  have h0 := (reversed_grain_realized_duration 100 0 1 (by norm_num)).1 rfl
  refine ⟨by norm_num, by norm_num, h.1, h.2.1, ?_, h.2.2.2.2, h0.1⟩
  rw [h.2.2.1]
  norm_num [Int.ceil_ofNat, Int.ceil_natCast]

/-- Witness for the mix-zeroing claim (C10): a playing block whose wave
asset is unchanged starts mixing from a zeroed base. -/
theorem mix_zeroing_witness :
    (zerosB 4).length = cfgBase.blockSize.toNat
    ∧ (executeBlock cfgBase envMixSame stPlayingBase (zerosB 4) (zerosB 4)).waveJustChanged
        = some false
    ∧ (executeBlock cfgBase envMixSame stPlayingBase (zerosB 4) (zerosB 4)).mixBaseL
        = (if (false : Bool) = true then zerosB 4 else zerosB cfgBase.blockSize.toNat)
    ∧ (executeBlock cfgBase envMixSame stPlayingBase (zerosB 4) (zerosB 4)).mixBaseR
        = (if (false : Bool) = true then zerosB 4 else zerosB cfgBase.blockSize.toNat) := by
  have hw : (executeBlock cfgBase envMixSame stPlayingBase (zerosB 4) (zerosB 4)).waveJustChanged
      = some false := by
    norm_num [executeBlock, triggerStage, processPlays, stopCommit, playingStage, mixStage,
      cfgBase, envMixSame, envBase, stPlayingBase, MinGrainDurationSecondsQ]
  have h := mix_zeroing_except_wave_change cfgBase envMixSame stPlayingBase
    (zerosB 4) (zerosB 4) false rfl rfl hw
  exact ⟨rfl, hw, h.1, h.2.1⟩

/-- Claim C6 counterexample: a committed FORWARD grain of the
reverse-capable operator can overrun the file end. With a 1-second asset,
conceptual start 0.995 s and grain duration 100 ms, the resolved grain is
valid and forward, its start is 0.995 (line 512 clamps the start only to
cachedDuration - MinGrainDurationSeconds = 0.995, not to
cachedDuration - resolvedDuration), TriggerGrain commits it (activates a
voice), and start + resolvedDuration = 1.095 exceeds
cachedDuration + ε = 1.000001 by about 95 ms — refuting
resolvedStartTime + resolvedDuration ≤ cachedAssetDuration + ε for every
committed grain. -/
theorem forward_grain_overrun_counterexample :
    (resolveGrainV1 envOverrun 48000 1 0).valid = true
    ∧ (resolveGrainV1 envOverrun 48000 1 0).reversed = false
    ∧ (resolveGrainV1 envOverrun 48000 1 0).startTimeQ = 199/200
    ∧ (resolveGrainV1 envOverrun 48000 1 0).outDurationSeconds = 1/10
    ∧ (triggerGrainV1 envOverrun wsOverrun (resolveGrainV1 envOverrun 48000 1 0)
        (List.replicate MaxGrainVoicesN defaultVoice)).1 = true
    ∧ wsOverrun.cachedDuration + EpsilonQ
        < (resolveGrainV1 envOverrun 48000 1 0).startTimeQ
          + (resolveGrainV1 envOverrun 48000 1 0).outDurationSeconds := by
  have hrg : resolveGrainV1 envOverrun 48000 1 0
      = ⟨0, true, false, 199/200, 0, 1/10, 4800, 1, 0, 1, 0⟩ := by
    norm_num [resolveGrainV1, resolveForwardStart, fmodQ, truncQ, clampQ, envOverrun,
      envBase, paramsBase, fnsBase, MinGrainDurationSecondsQ, MaxAbsPitchShiftSemitonesQ,
      SmallNumberQ]
  have hf : (List.replicate MaxGrainVoicesN defaultVoice).findIdx? (fun v => !v.bIsActive)
      = some 0 := rfl
  rw [hrg]
  refine ⟨rfl, rfl, rfl, rfl, ?_, ?_⟩
  · norm_num [triggerGrainV1, wsOverrun, envOverrun, envBase, MinGrainDurationSecondsQ, hf]
  · norm_num [wsOverrun, EpsilonQ]

end Metagrain
